import Mathlib

/-!
# Manifest metadata core: `db/version_edit.h`

A shallow embedding of the file-identity packing, `FileDescriptor`,
`FileMetaData` and the `VersionEdit` mutators of `db/version_edit.h`, and of
`RocksLogShorterFileName` of `logging/logging.h`, followed by theorems about
them.

Conventions of the embedding

* `uint64_t`, `uint32_t`, `uint8_t` and `SequenceNumber` values are natural
  numbers; where the C++ arithmetic can wrap, the reduction modulo `2^w` is
  written out.
* `int` values (levels, `refs`) are integers.
* a pointer is `Option Nat`, `none` being `nullptr`.
* a method with an `assert` returns `Except VersionEdit VersionEdit`:
  `.ok e` is the edit after the call, `.error e` is a failed assertion, `e`
  being the edit as it was when the assertion failed.
* a function that is only declared in the header (`PackFileNumberAndPathId`,
  `RangeEraseSet::push`, `MergeRangeSet`, `PartialRemovedMetaData::InitFrom`)
  and the types of `db/dbformat.h` are modelled from the specification; the
  doc comment of each such definition says so. `kMaxSequenceNumber`, also of
  `db/dbformat.h`, is a parameter.
-/

/-! ## `logging/logging.h` -/

/-- The C library function `strrchr` on a string given as its characters
before the terminator: the position of the last occurrence of `c`, `none`
for the null pointer. -/
def strrchr : List Char → Char → Option Nat
  | [], _ => none
  | x :: xs, c =>
    match strrchr xs c with
    | some i => some (i + 1)
    | none => if x = c then some 0 else none

/-- The function `RocksLogShorterFileName` (lines 22-33 of
`logging/logging.h`), built without `OS_WIN`: `p + 1` is the string that
starts one character after position `p`. -/
def RocksLogShorterFileName (file : List Char) : List Char :=
  match strrchr file '/' with
  | some p => file.drop (p + 1)
  | none => file

namespace rocksdb

/-! ## File identity -/

/-- Constant `kFileNumberMask = 0x3FFFFFFFFFFFFFFF` (line 28). -/
def kFileNumberMask : Nat := 0x3FFFFFFFFFFFFFFF

/-- Constant `kPartialRemovedMax = 100` (line 29). -/
def kPartialRemovedMax : Nat := 100

/-- Modelled from the spec: the body of `PackFileNumberAndPathId` (declared
`extern` at line 31) is not in the header. The spec gives
`pack(number, path_id) = number | (path_id << 62)`; both operands and the
result are `uint64_t`, so the result is reduced modulo `2^64`. -/
def PackFileNumberAndPathId (number path_id : Nat) : Nat :=
  (number ||| (path_id <<< 62)) % 2 ^ 64

/-- The struct `FileDescriptor` (lines 38-66). -/
structure FileDescriptor where
  table_reader : Option Nat
  packed_number_and_path_id : Nat
  file_size : Nat
  deriving DecidableEq, Repr

namespace FileDescriptor

/-- The constructor `FileDescriptor(number, path_id, _file_size)` (lines 46-49). -/
def mk3 (number path_id _file_size : Nat) : FileDescriptor :=
  { table_reader := none
    packed_number_and_path_id := PackFileNumberAndPathId number path_id
    file_size := _file_size }

/-- The default constructor `FileDescriptor() : FileDescriptor(0, 0, 0)` (line 44). -/
def default : FileDescriptor := mk3 0 0 0

/-- The method `GetNumber` (lines 58-60). -/
def GetNumber (d : FileDescriptor) : Nat :=
  d.packed_number_and_path_id &&& kFileNumberMask

/-- The method `GetPathId` (lines 61-64): the quotient is cast to `uint32_t`. -/
def GetPathId (d : FileDescriptor) : Nat :=
  (d.packed_number_and_path_id / (kFileNumberMask + 1)) % 2 ^ 32

/-- The method `GetFileSize` (line 65). -/
def GetFileSize (d : FileDescriptor) : Nat := d.file_size

end FileDescriptor

/-! ## File metadata -/

/-- Modelled from the spec: class `InternalKey` is declared in `db/dbformat.h`,
which is not among the sources; the spec only names it as the element type of
a range set. A key is modelled as the byte string it wraps, the
default-constructed key being the empty string. -/
structure InternalKey where
  rep_ : String
  deriving DecidableEq, Repr

/-- The struct `FileSampledStats` (lines 68-78); the atomic counter is a number. -/
structure FileSampledStats where
  num_reads_sampled : Nat
  deriving DecidableEq, Repr

/-- The struct `FileMetaData` (lines 112-194), fields in declaration order. -/
structure FileMetaData where
  fd : FileDescriptor
  range_set : List InternalKey
  smallest_seqno : Nat
  largest_seqno : Nat
  table_reader_handle : Option Nat
  stats : FileSampledStats
  compensated_file_size : Nat
  num_entries : Nat
  num_deletions : Nat
  raw_key_size : Nat
  raw_value_size : Nat
  refs : Int
  being_compacted : Bool
  init_stats_from_file : Bool
  marked_for_compaction : Bool
  partial_removed : Nat
  compact_to_level : Nat
  meta_level : Nat
  deriving DecidableEq, Repr

namespace FileMetaData

/-- The constructor `FileMetaData()` (lines 165-182). The constant
`kMaxSequenceNumber` comes from `db/dbformat.h`, which is not among the
sources, and is a parameter. Members without an initialiser are
default-constructed (`fd`, `stats`), and `range_set.resize(2)` leaves two
default-constructed keys. -/
def ctor (kMaxSequenceNumber : Nat) : FileMetaData :=
  { fd := FileDescriptor.default
    range_set := List.replicate 2 { rep_ := "" }
    smallest_seqno := kMaxSequenceNumber
    largest_seqno := 0
    table_reader_handle := none
    stats := { num_reads_sampled := 0 }
    compensated_file_size := 0
    num_entries := 0
    num_deletions := 0
    raw_key_size := 0
    raw_value_size := 0
    refs := 0
    being_compacted := false
    init_stats_from_file := false
    marked_for_compaction := false
    partial_removed := 0
    compact_to_level := 0
    meta_level := 0 }

end FileMetaData

/-! ## Version edits -/

/-- The class `VersionEdit` (lines 231-389): its private fields, in
declaration order (lines 363-388). `DeletedFileSet` is a
`std::set<std::pair<int, uint64_t>>`, a finite set of pairs. -/
structure VersionEdit where
  max_level_ : Int
  comparator_ : String
  log_number_ : Nat
  prev_log_number_ : Nat
  next_file_number_ : Nat
  max_column_family_ : Nat
  last_sequence_ : Nat
  has_comparator_ : Bool
  has_log_number_ : Bool
  has_prev_log_number_ : Bool
  has_next_file_number_ : Bool
  has_last_sequence_ : Bool
  has_max_column_family_ : Bool
  deleted_files_ : Finset (Int × Nat)
  new_files_ : List (Int × FileMetaData)
  column_family_ : Nat
  is_column_family_drop_ : Bool
  is_column_family_add_ : Bool
  column_family_name_ : String
  deriving DecidableEq

namespace VersionEdit

/-- The method `SetComparatorName` (lines 238-241). -/
def SetComparatorName (e : VersionEdit) (name : String) : VersionEdit :=
  let e := { e with has_comparator_ := true }
  { e with comparator_ := name }

/-- The method `SetLogNumber` (lines 242-245). -/
def SetLogNumber (e : VersionEdit) (num : Nat) : VersionEdit :=
  let e := { e with has_log_number_ := true }
  { e with log_number_ := num }

/-- The method `SetPrevLogNumber` (lines 246-249). -/
def SetPrevLogNumber (e : VersionEdit) (num : Nat) : VersionEdit :=
  let e := { e with has_prev_log_number_ := true }
  { e with prev_log_number_ := num }

/-- The method `SetNextFile` (lines 250-253). -/
def SetNextFile (e : VersionEdit) (num : Nat) : VersionEdit :=
  let e := { e with has_next_file_number_ := true }
  { e with next_file_number_ := num }

/-- The method `SetLastSequence` (lines 254-257). -/
def SetLastSequence (e : VersionEdit) (seq : Nat) : VersionEdit :=
  let e := { e with has_last_sequence_ := true }
  { e with last_sequence_ := seq }

/-- The method `SetMaxColumnFamily` (lines 258-261). -/
def SetMaxColumnFamily (e : VersionEdit) (max_column_family : Nat) : VersionEdit :=
  let e := { e with has_max_column_family_ := true }
  { e with max_column_family_ := max_column_family }

/-- The eleven-argument `AddFile` (lines 266-283): the assertion comes first,
then a default-constructed `FileMetaData` is filled in field by field and
appended to `new_files_`. -/
def AddFile (kMaxSequenceNumber : Nat) (e : VersionEdit) (level : Int)
    (file file_path_id file_size : Nat) (range_set : List InternalKey)
    (smallest_seqno largest_seqno : Nat) (marked_for_compaction : Bool)
    (partial_removed compact_to_level meta_level : Nat) :
    Except VersionEdit VersionEdit :=
  if smallest_seqno ≤ largest_seqno then
    let f := FileMetaData.ctor kMaxSequenceNumber
    let f := { f with fd := FileDescriptor.mk3 file file_path_id file_size }
    let f := { f with range_set := range_set }
    let f := { f with smallest_seqno := smallest_seqno }
    let f := { f with largest_seqno := largest_seqno }
    let f := { f with marked_for_compaction := marked_for_compaction }
    let f := { f with partial_removed := partial_removed }
    let f := { f with compact_to_level := compact_to_level }
    let f := { f with meta_level := meta_level }
    .ok { e with new_files_ := e.new_files_ ++ [(level, f)] }
  else
    .error e

/-- The overload `AddFile(int level, const FileMetaData& f)` (lines 285-288). -/
def AddFileMeta (e : VersionEdit) (level : Int) (f : FileMetaData) :
    Except VersionEdit VersionEdit :=
  if f.smallest_seqno ≤ f.largest_seqno then
    .ok { e with new_files_ := e.new_files_ ++ [(level, f)] }
  else
    .error e

/-- The method `DeleteFile` (lines 291-293). -/
def DeleteFile (e : VersionEdit) (level : Int) (file : Nat) : VersionEdit :=
  { e with deleted_files_ := insert (level, file) e.deleted_files_ }

/-- The method `NumEntries` (line 296). -/
def NumEntries (e : VersionEdit) : Nat :=
  e.new_files_.length + e.deleted_files_.card

/-- The method `IsColumnFamilyManipulation` (lines 298-300). -/
def IsColumnFamilyManipulation (e : VersionEdit) : Bool :=
  e.is_column_family_add_ || e.is_column_family_drop_

/-- The method `SetColumnFamily` (lines 302-304). -/
def SetColumnFamily (e : VersionEdit) (column_family_id : Nat) : VersionEdit :=
  { e with column_family_ := column_family_id }

/-- The method `AddColumnFamily` (lines 307-313): three assertions, then two
assignments. -/
def AddColumnFamily (e : VersionEdit) (name : String) :
    Except VersionEdit VersionEdit :=
  if e.is_column_family_drop_ then .error e
  else if e.is_column_family_add_ then .error e
  else if e.NumEntries ≠ 0 then .error e
  else
    let e := { e with is_column_family_add_ := true }
    .ok { e with column_family_name_ := name }

/-- The method `DropColumnFamily` (lines 316-321): three assertions, then one
assignment. -/
def DropColumnFamily (e : VersionEdit) : Except VersionEdit VersionEdit :=
  if e.is_column_family_drop_ then .error e
  else if e.is_column_family_add_ then .error e
  else if e.NumEntries ≠ 0 then .error e
  else .ok { e with is_column_family_drop_ := true }

/-- The accessor `GetDeletedFiles` (line 331). -/
def GetDeletedFiles (e : VersionEdit) : Finset (Int × Nat) := e.deleted_files_

/-- The accessor `GetNewFiles` (lines 332-334). -/
def GetNewFiles (e : VersionEdit) : List (Int × FileMetaData) := e.new_files_

/-- An edit with no new file, no deleted file, no present optional field and
no lifecycle flag: the starting state of the concrete scenarios. -/
def blank : VersionEdit :=
  { max_level_ := 0
    comparator_ := ""
    log_number_ := 0
    prev_log_number_ := 0
    next_file_number_ := 0
    max_column_family_ := 0
    last_sequence_ := 0
    has_comparator_ := false
    has_log_number_ := false
    has_prev_log_number_ := false
    has_next_file_number_ := false
    has_last_sequence_ := false
    has_max_column_family_ := false
    deleted_files_ := ∅
    new_files_ := []
    column_family_ := 0
    is_column_family_drop_ := false
    is_column_family_add_ := false
    column_family_name_ := "" }

/-- The blank edit after `SetLogNumber(5)` and `AddColumnFamily("cf1")`: a
concrete lifecycle record. -/
def lifecycleExample : VersionEdit :=
  { blank.SetLogNumber 5 with
    is_column_family_add_ := true
    column_family_name_ := "cf1" }

end VersionEdit

/-- One call of a mutator of `VersionEdit` (lines 238-321), with its
arguments. -/
inductive Mutator where
  | SetComparatorName (name : String)
  | SetLogNumber (num : Nat)
  | SetPrevLogNumber (num : Nat)
  | SetNextFile (num : Nat)
  | SetLastSequence (seq : Nat)
  | SetMaxColumnFamily (max_column_family : Nat)
  | AddFile (level : Int) (file file_path_id file_size : Nat)
      (range_set : List InternalKey) (smallest_seqno largest_seqno : Nat)
      (marked_for_compaction : Bool)
      (partial_removed compact_to_level meta_level : Nat)
  | AddFileMeta (level : Int) (f : FileMetaData)
  | DeleteFile (level : Int) (file : Nat)
  | SetColumnFamily (column_family_id : Nat)
  | AddColumnFamily (name : String)
  | DropColumnFamily
  deriving DecidableEq

namespace Mutator

/-- Whether the call is one of the two `AddFile` overloads or `DeleteFile`. -/
def isFileOp : Mutator → Bool
  | AddFile .. => true
  | AddFileMeta .. => true
  | DeleteFile .. => true
  | _ => false

/-- Whether the call is `AddColumnFamily` or `DropColumnFamily`. -/
def isLifecycleOp : Mutator → Bool
  | AddColumnFamily .. => true
  | DropColumnFamily => true
  | _ => false

end Mutator

namespace VersionEdit

/-- Performs one mutator call on an edit. -/
def call (kMaxSequenceNumber : Nat) (e : VersionEdit) :
    Mutator → Except VersionEdit VersionEdit
  | .SetComparatorName name => .ok (e.SetComparatorName name)
  | .SetLogNumber num => .ok (e.SetLogNumber num)
  | .SetPrevLogNumber num => .ok (e.SetPrevLogNumber num)
  | .SetNextFile num => .ok (e.SetNextFile num)
  | .SetLastSequence seq => .ok (e.SetLastSequence seq)
  | .SetMaxColumnFamily m => .ok (e.SetMaxColumnFamily m)
  | .AddFile level file file_path_id file_size range_set smallest_seqno
      largest_seqno marked_for_compaction partial_removed compact_to_level
      meta_level =>
    AddFile kMaxSequenceNumber e level file file_path_id file_size range_set
      smallest_seqno largest_seqno marked_for_compaction partial_removed
      compact_to_level meta_level
  | .AddFileMeta level f => e.AddFileMeta level f
  | .DeleteFile level file => .ok (e.DeleteFile level file)
  | .SetColumnFamily id => .ok (e.SetColumnFamily id)
  | .AddColumnFamily name => e.AddColumnFamily name
  | .DropColumnFamily => e.DropColumnFamily

/-- Performs a sequence of mutator calls in order; the first failed assertion
ends the run. -/
def callAll (kMaxSequenceNumber : Nat) (e : VersionEdit) :
    List Mutator → Except VersionEdit VersionEdit
  | [] => .ok e
  | m :: ms =>
    match call kMaxSequenceNumber e m with
    | .ok e1 => callAll kMaxSequenceNumber e1 ms
    | .error e1 => .error e1

end VersionEdit

/-! ## Boundaries of a file -/

namespace InternalKey

/-- Modelled from the spec: `InternalKey::size` is defined in `db/dbformat.h`,
which is not among the sources. The size of a key is the length of the byte
string it wraps. -/
def size (k : InternalKey) : Nat := k.rep_.length

/-- Modelled from the spec: `InternalKey::DecodeFrom(const Slice&)` is defined
in `db/dbformat.h`, which is not among the sources. The key takes the bytes
of the slice in place of its own. -/
def DecodeFrom (_k : InternalKey) (s : String) : InternalKey := { rep_ := s }

end InternalKey

namespace FileMetaData

/-- The accessor `smallest()` (lines 117-118): `range_set.front()`, which is
not defined on an empty vector. -/
def smallest (f : FileMetaData) : Option InternalKey := f.range_set.head?

/-- The accessor `largest()` (lines 120-121): `range_set.back()`, which is
not defined on an empty vector. -/
def largest (f : FileMetaData) : Option InternalKey := f.range_set.getLast?

/-- The vector after `back()` has been overwritten through `g`. -/
def modifyBack (g : InternalKey → InternalKey) (v : List InternalKey) :
    List InternalKey :=
  match v.getLast? with
  | some b => v.dropLast ++ [g b]
  | none => v

/-- The method `UpdateBoundaries` (lines 186-193); `none` when `range_set`
is empty, where `front()` and `back()` are not defined. -/
def UpdateBoundaries (f : FileMetaData) (key : String) (seqno : Nat) :
    Option FileMetaData :=
  match f.smallest with
  | none => none
  | some s =>
    let f :=
      if s.size = 0 then
        { f with range_set := f.range_set.modifyHead (fun k => k.DecodeFrom key) }
      else f
    let f := { f with range_set := modifyBack (fun k => k.DecodeFrom key) f.range_set }
    let f := { f with smallest_seqno := min f.smallest_seqno seqno }
    let f := { f with largest_seqno := max f.largest_seqno seqno }
    some f

/-- A sequence of `UpdateBoundaries(key, seqno)` calls, in order. -/
def UpdateBoundariesAll (f : FileMetaData) : List (String × Nat) → Option FileMetaData
  | [] => some f
  | c :: rest =>
    match f.UpdateBoundaries c.1 c.2 with
    | some f1 => UpdateBoundariesAll f1 rest
    | none => none

/-- Whether a range set has an even length of at least 2. -/
def rangeSetWellFormed (f : FileMetaData) : Bool :=
  decide (2 ≤ f.range_set.length) && decide (f.range_set.length % 2 = 0)

end FileMetaData

namespace Mutator

/-- Whether the call is one of the two `AddFile` overloads. -/
def isAddFile : Mutator → Bool
  | AddFile .. => true
  | AddFileMeta .. => true
  | _ => false

/-- The pair passed to `DeleteFile`, for a `DeleteFile` call. -/
def deletedPair : Mutator → Option (Int × Nat)
  | DeleteFile level file => some (level, file)
  | _ => none

/-- Whether the range set handed to an `AddFile` call has an even length of at
least 2; true of every other call. -/
def rangeSetGiven : Mutator → Bool
  | AddFile _ _ _ _ range_set _ _ _ _ _ _ =>
    decide (2 ≤ range_set.length) && decide (range_set.length % 2 = 0)
  | AddFileMeta _ f => f.rangeSetWellFormed
  | _ => true

end Mutator

/-! ## Range erasure -/

/-- The struct `RangeEraseSet` (lines 80-87): the vectors `erase` and `open`;
`open` being a reserved word, the second is `open_`. -/
structure RangeEraseSet where
  erase : List InternalKey
  open_ : List Bool
  deriving DecidableEq, Repr

/-- One interval of a `RangeEraseSet`: its two endpoints and, for each,
whether the endpoint is excluded. -/
structure EraseInterval where
  lo : InternalKey
  hi : InternalKey
  lo_open : Bool
  hi_open : Bool
  deriving DecidableEq, Repr

namespace RangeEraseSet

/-- A `RangeEraseSet` as it is constructed: both vectors empty, no interval
pushed. -/
def empty : RangeEraseSet := { erase := [], open_ := [] }

/-- Modelled from the spec: `RangeEraseSet::push` is only declared (lines
83-84). The spec says that `push` inserts one interval: the two endpoints go
to the end of `erase` and their two flags to the end of `open`. -/
def push (r : RangeEraseSet) (smallest largest : InternalKey)
    (smallest_open largest_open : Bool) : RangeEraseSet :=
  { erase := r.erase ++ [smallest, largest]
    open_ := r.open_ ++ [smallest_open, largest_open] }

/-- The intervals held by the two parallel vectors, in the order pushed. -/
def intervals : List InternalKey → List Bool → List EraseInterval
  | lo :: hi :: ks, lo_open :: hi_open :: fs =>
    { lo := lo, hi := hi, lo_open := lo_open, hi_open := hi_open } :: intervals ks fs
  | _, _ => []

end RangeEraseSet

/-- Modelled from the spec: `InternalKeyComparator` is declared in
`db/dbformat.h`, which is not among the sources; it is the column family's
key comparator, a three-way comparison of two keys. -/
abbrev InternalKeyComparator : Type := InternalKey → InternalKey → Ordering

/-- Modelled from the spec: `InternalIterator` is only forward-declared (line
24). The spec describes it as the on-disk iterator over the file's physical
entries, with "seek to key", "valid" and "current key"; it is modelled as the
keys stored in the file, in ascending order. -/
abbrev InternalIterator : Type := List InternalKey

namespace EraseInterval

/-- Whether key `k` lies before the erased interval: before its low endpoint,
or on it when that endpoint is excluded. -/
def keyBelow (ic : InternalKeyComparator) (r : EraseInterval) (k : InternalKey) : Bool :=
  match ic k r.lo with
  | .lt => true
  | .eq => r.lo_open
  | .gt => false

/-- Whether key `k` lies after the erased interval: after its high endpoint,
or on it when that endpoint is excluded. -/
def keyAbove (ic : InternalKeyComparator) (r : EraseInterval) (k : InternalKey) : Bool :=
  match ic k r.hi with
  | .gt => true
  | .eq => r.hi_open
  | .lt => false

/-- Whether `r` comes no later than `s` in the order of the sweep: by low
endpoint, an included endpoint before an excluded one at equal keys. -/
def startsBefore (ic : InternalKeyComparator) (r s : EraseInterval) : Bool :=
  match ic r.lo s.lo with
  | .lt => true
  | .eq => !r.lo_open || s.lo_open
  | .gt => false

/-- Inserts an interval into a list sorted by `startsBefore`. -/
def insertSorted (ic : InternalKeyComparator) (r : EraseInterval) :
    List EraseInterval → List EraseInterval
  | [] => [r]
  | s :: rest =>
    if startsBefore ic r s then r :: s :: rest else s :: insertSorted ic r rest

/-- Sorts the erase intervals by low endpoint. -/
def sortByLow (ic : InternalKeyComparator) : List EraseInterval → List EraseInterval
  | [] => []
  | r :: rest => insertSorted ic r (sortByLow ic rest)

end EraseInterval

/-- The valid intervals `[range_set[2i], range_set[2i+1]]` of a range set. -/
def rangePairs : List InternalKey → List (InternalKey × InternalKey)
  | a :: b :: rest => (a, b) :: rangePairs rest
  | _ => []

/-- The range set whose valid intervals are the given ones. -/
def rangeKeys : List (InternalKey × InternalKey) → List InternalKey
  | [] => []
  | (a, b) :: rest => a :: b :: rangeKeys rest

/-- Modelled from the spec: one step of the sweep of `MergeRangeSet`, whose
body is not in the header. An interval fully outside the erase interval
passes through unchanged. Otherwise it is split at the overlap: what survives
before the cut ends at the nearest stored entry before it, what survives
after the cut starts at the nearest stored entry after it, and a side on
which the iterator finds no such entry inside the interval is dropped. -/
def cutInterval (ic : InternalKeyComparator) (iter : InternalIterator)
    (v : InternalKey × InternalKey) (r : EraseInterval) :
    List (InternalKey × InternalKey) :=
  if r.keyAbove ic v.1 || r.keyBelow ic v.2 then [v]
  else
    let before :=
      match (iter.filter (fun k => ic v.1 k != .gt && r.keyBelow ic k)).getLast? with
      | some k => [(v.1, k)]
      | none => []
    let after :=
      match (iter.filter (fun k => r.keyAbove ic k && ic k v.2 != .gt)).head? with
      | some k => [(k, v.2)]
      | none => []
    before ++ after

/-- Modelled from the spec: `MergeRangeSet` is only declared (lines 89-93).
The spec's algorithm: the erase intervals are sorted by low endpoint, the
valid intervals are swept against them, each overlap splitting a valid
interval as in `cutInterval`; surviving intervals are kept apart, in
ascending order. The result is the `output` vector. -/
def MergeRangeSet (range_set : List InternalKey) (erase_set : RangeEraseSet)
    (ic : InternalKeyComparator) (iter : InternalIterator) : List InternalKey :=
  let erased :=
    EraseInterval.sortByLow ic (RangeEraseSet.intervals erase_set.erase erase_set.open_)
  rangeKeys
    (erased.foldl (fun valid r => valid.flatMap (fun v => cutInterval ic iter v r))
      (rangePairs range_set))

/-- The struct `PartialRemovedMetaData` (lines 95-110); `meta` points to the
file being edited. -/
structure PartialRemovedMetaData where
  range_set : List InternalKey
  meta : Option FileMetaData
  partial_removed : Nat
  compact_to_level : Nat
  deriving DecidableEq, Repr

namespace PartialRemovedMetaData

/-- Modelled from the spec: `PartialRemovedMetaData::InitFrom` is only
declared (lines 103-107); the comparator and the iterator stand for what
`cfd` and `env_opt` give access to. The spec's steps: (1) merge the erase set
into the file's range set and return `changed = false` when the result is
identical to the input; (2) otherwise adopt the new range set and increment
`partial_removed`, saturating at `kPartialRemovedMax`; (3) when the cap is
reached or an output level is requested, set `compact_to_level` to
`output_level`; (4) return `changed = true`. The result is the record after
the call and the value returned. -/
def InitFrom (p : PartialRemovedMetaData) (file : FileMetaData)
    (erase_set : RangeEraseSet) (output_level : Nat)
    (ic : InternalKeyComparator) (iter : InternalIterator) :
    PartialRemovedMetaData × Bool :=
  let merged := MergeRangeSet file.range_set erase_set ic iter
  if merged = file.range_set then (p, false)
  else
    let p := { p with range_set := merged }
    let p := { p with meta := some file }
    let p := { p with partial_removed := min (file.partial_removed + 1) kPartialRemovedMax }
    let p :=
      if p.partial_removed = kPartialRemovedMax ∨ output_level ≠ 0 then
        { p with compact_to_level := output_level }
      else p
    (p, true)

end PartialRemovedMetaData

/-- The comparator of the concrete scenarios: keys in the order of the strings
they wrap. -/
def compareByRep : InternalKeyComparator := fun a b => compare a.rep_ b.rep_

/-! ## Arithmetic of the packed identity -/

theorem kFileNumberMask_eq : kFileNumberMask = 2 ^ 62 - 1 := by
  unfold kFileNumberMask; norm_num

theorem and_mask_eq_mod (v : Nat) : v &&& kFileNumberMask = v % 2 ^ 62 := by
  rw [kFileNumberMask_eq]
  exact Nat.and_pow_two_sub_one_eq_mod v 62

theorem pack_eq_add (n p : Nat) (hn : n < 2 ^ 62) :
    n ||| (p <<< 62) = 2 ^ 62 * p + n := by
  rw [Nat.shiftLeft_eq, Nat.mul_comm p, Nat.lor_comm]
  exact (Nat.mul_add_lt_is_or hn p).symm

end rocksdb

namespace rocksdb

theorem pack_of_lt (n p : Nat) (hn : n < 2 ^ 62) (hp : p < 4) :
    PackFileNumberAndPathId n p = 2 ^ 62 * p + n := by
  unfold PackFileNumberAndPathId
  rw [pack_eq_add n p hn]
  apply Nat.mod_eq_of_lt
  omega

/-- C1: for a file number `n < 2^62`, a path id `p < 4` and any size `s`, the
descriptor `FileDescriptor(n, p, s)` gives back `n` from `GetNumber`, `p`
from `GetPathId` and `s` from `GetFileSize`. -/
theorem FileDescriptor.unpack_pack (n p s : Nat) (hn : n < 2 ^ 62) (hp : p < 4) :
    (FileDescriptor.mk3 n p s).packed_number_and_path_id = n ||| (p <<< 62) ∧
    (FileDescriptor.mk3 n p s).GetNumber = n ∧
    (FileDescriptor.mk3 n p s).GetPathId = p ∧
    (FileDescriptor.mk3 n p s).GetFileSize = s := by
  have hpack := pack_of_lt n p hn hp
  have hk : kFileNumberMask + 1 = 2 ^ 62 := by unfold kFileNumberMask; norm_num
  refine ⟨?_, ?_, ?_, rfl⟩
  · show PackFileNumberAndPathId n p = _
    rw [hpack, pack_eq_add n p hn]
  · show PackFileNumberAndPathId n p &&& kFileNumberMask = n
    rw [and_mask_eq_mod, hpack]
    omega
  · show (PackFileNumberAndPathId n p / (kFileNumberMask + 1)) % 2 ^ 32 = p
    rw [hpack, hk]
    omega

/-- Witness of C1 at file number 7, path id 3 and size 4096. -/
theorem FileDescriptor.unpack_pack_witness :
    (7 < 2 ^ 62 ∧ 3 < 4) ∧
    (FileDescriptor.mk3 7 3 4096).packed_number_and_path_id = 7 ||| (3 <<< 62) ∧
    (FileDescriptor.mk3 7 3 4096).GetNumber = 7 ∧
    (FileDescriptor.mk3 7 3 4096).GetPathId = 3 ∧
    (FileDescriptor.mk3 7 3 4096).GetFileSize = 4096 :=
  ⟨by norm_num, FileDescriptor.unpack_pack 7 3 4096 (by norm_num) (by norm_num)⟩

/-- C2: for every 64-bit packed value `v`, `GetNumber` is at most `2^62 - 1`,
`v` equals `GetPathId * 2^62 + GetNumber`, which is the packing of
`GetNumber` and `GetPathId`; hence descriptors that agree on `GetNumber` and
`GetPathId` have the same packed value. -/
theorem FileDescriptor.pack_unpack (d : FileDescriptor)
    (hv : d.packed_number_and_path_id < 2 ^ 64) :
    d.GetNumber ≤ 2 ^ 62 - 1 ∧
    d.packed_number_and_path_id = d.GetPathId * 2 ^ 62 + d.GetNumber ∧
    d.packed_number_and_path_id = PackFileNumberAndPathId d.GetNumber d.GetPathId ∧
    ∀ d2 : FileDescriptor, d2.packed_number_and_path_id < 2 ^ 64 →
      d2.GetNumber = d.GetNumber → d2.GetPathId = d.GetPathId →
      d2.packed_number_and_path_id = d.packed_number_and_path_id := by
  have hk : kFileNumberMask + 1 = 2 ^ 62 := by unfold kFileNumberMask; norm_num
  have key : ∀ x : FileDescriptor, x.packed_number_and_path_id < 2 ^ 64 →
      x.GetNumber < 2 ^ 62 ∧ x.GetPathId < 4 ∧
      x.packed_number_and_path_id = x.GetPathId * 2 ^ 62 + x.GetNumber := by
    intro x hx
    have h1 : x.GetNumber = x.packed_number_and_path_id % 2 ^ 62 :=
      and_mask_eq_mod _
    have h2 : x.GetPathId = x.packed_number_and_path_id / 2 ^ 62 := by
      show (x.packed_number_and_path_id / (kFileNumberMask + 1)) % 2 ^ 32 = _
      rw [hk]
      omega
    rw [h1, h2]
    omega
  obtain ⟨a, b, c⟩ := key d hv
  refine ⟨by omega, c, ?_, ?_⟩
  · rw [pack_of_lt _ _ a b]
    omega
  · intro d2 h2 hn hp
    obtain ⟨_, _, c2⟩ := key d2 h2
    rw [c2, c, hn, hp]

/-- Witness of C2 at the packed value `3 * 2^62 + 7`, whose number is 7 and
whose path id is 3. -/
theorem FileDescriptor.pack_unpack_witness :
    (FileDescriptor.mk none (3 * 2 ^ 62 + 7) 0).packed_number_and_path_id < 2 ^ 64 ∧
    (FileDescriptor.mk none (3 * 2 ^ 62 + 7) 0).GetNumber ≤ 2 ^ 62 - 1 ∧
    (FileDescriptor.mk none (3 * 2 ^ 62 + 7) 0).packed_number_and_path_id =
      (FileDescriptor.mk none (3 * 2 ^ 62 + 7) 0).GetPathId * 2 ^ 62 +
        (FileDescriptor.mk none (3 * 2 ^ 62 + 7) 0).GetNumber ∧
    (FileDescriptor.mk none (3 * 2 ^ 62 + 7) 0).packed_number_and_path_id =
      PackFileNumberAndPathId (FileDescriptor.mk none (3 * 2 ^ 62 + 7) 0).GetNumber
        (FileDescriptor.mk none (3 * 2 ^ 62 + 7) 0).GetPathId :=
  have h := FileDescriptor.pack_unpack (FileDescriptor.mk none (3 * 2 ^ 62 + 7) 0)
    (by norm_num)
  ⟨by norm_num, h.1, h.2.1, h.2.2.1⟩

end rocksdb

namespace rocksdb

namespace VersionEdit

/-! ## Column-family lifecycle calls -/

/-- C5: `AddColumnFamily(name)` and `DropColumnFamily()` each succeed exactly
when both lifecycle flags are false and `NumEntries() = 0`, and fail their
assertion otherwise, leaving the edit as it was; on success
`AddColumnFamily` sets `is_column_family_add_` and `column_family_name_`,
`DropColumnFamily` sets `is_column_family_drop_`, and no other field
changes. -/
theorem lifecycle_call_succeeds_iff (e : VersionEdit) (name : String) :
    (e.AddColumnFamily name =
        .ok { e with is_column_family_add_ := true, column_family_name_ := name } ↔
      (e.is_column_family_add_ = false ∧ e.is_column_family_drop_ = false ∧
        e.NumEntries = 0)) ∧
    (e.AddColumnFamily name = .error e ↔
      ¬ (e.is_column_family_add_ = false ∧ e.is_column_family_drop_ = false ∧
        e.NumEntries = 0)) ∧
    (e.DropColumnFamily = .ok { e with is_column_family_drop_ := true } ↔
      (e.is_column_family_add_ = false ∧ e.is_column_family_drop_ = false ∧
        e.NumEntries = 0)) ∧
    (e.DropColumnFamily = .error e ↔
      ¬ (e.is_column_family_add_ = false ∧ e.is_column_family_drop_ = false ∧
        e.NumEntries = 0)) := by
  unfold AddColumnFamily DropColumnFamily
  cases hd : e.is_column_family_drop_ <;> cases ha : e.is_column_family_add_ <;>
    by_cases hn : e.NumEntries = 0 <;> simp [hn]

/-! ## Adding files -/

/-- C7: each `AddFile` overload fails its assertion exactly when
`smallest_seqno > largest_seqno`, the edit being then as it was before the
call (no new entry), and succeeds exactly when
`smallest_seqno <= largest_seqno`, whatever the other arguments are. -/
theorem AddFile_fails_iff (kMaxSequenceNumber : Nat) (e : VersionEdit) (level : Int)
    (file file_path_id file_size : Nat) (range_set : List InternalKey)
    (smallest_seqno largest_seqno : Nat) (marked_for_compaction : Bool)
    (partial_removed compact_to_level meta_level : Nat) (f : FileMetaData) :
    (AddFile kMaxSequenceNumber e level file file_path_id file_size range_set
        smallest_seqno largest_seqno marked_for_compaction partial_removed
        compact_to_level meta_level = .error e ↔ largest_seqno < smallest_seqno) ∧
    ((∃ e1, AddFile kMaxSequenceNumber e level file file_path_id file_size range_set
        smallest_seqno largest_seqno marked_for_compaction partial_removed
        compact_to_level meta_level = .ok e1) ↔ smallest_seqno ≤ largest_seqno) ∧
    (e.AddFileMeta level f = .error e ↔ f.largest_seqno < f.smallest_seqno) ∧
    ((∃ e1, e.AddFileMeta level f = .ok e1) ↔
      f.smallest_seqno ≤ f.largest_seqno) := by
  unfold AddFile AddFileMeta
  refine ⟨?_, ?_, ?_, ?_⟩
  · by_cases h : smallest_seqno ≤ largest_seqno
    · simp [h]
    · simp [h]; omega
  · by_cases h : smallest_seqno ≤ largest_seqno <;> simp [h]
  · by_cases h : f.smallest_seqno ≤ f.largest_seqno
    · simp [h]
    · simp [h]; omega
  · by_cases h : f.smallest_seqno ≤ f.largest_seqno <;> simp [h]

/-! ## Deleting files -/

/-- C9: `DeleteFile` has set semantics: the pair is a member of
`GetDeletedFiles()` afterwards, a second identical call leaves the edit and
`NumEntries()` unchanged, and two `DeleteFile` calls give the same edit in
either order. -/
theorem DeleteFile_set_semantics (e : VersionEdit) (level : Int) (file : Nat)
    (l1 : Int) (f1 : Nat) (l2 : Int) (f2 : Nat) :
    (level, file) ∈ (e.DeleteFile level file).GetDeletedFiles ∧
    (e.DeleteFile level file).DeleteFile level file = e.DeleteFile level file ∧
    ((e.DeleteFile level file).DeleteFile level file).NumEntries =
      (e.DeleteFile level file).NumEntries ∧
    ((e.DeleteFile l1 f1).DeleteFile l2 f2).GetDeletedFiles =
      ((e.DeleteFile l2 f2).DeleteFile l1 f1).GetDeletedFiles ∧
    (e.DeleteFile l1 f1).DeleteFile l2 f2 = (e.DeleteFile l2 f2).DeleteFile l1 f1 := by
  have idem : (e.DeleteFile level file).DeleteFile level file =
      e.DeleteFile level file := by
    simp [DeleteFile]
  have comm : (e.DeleteFile l1 f1).DeleteFile l2 f2 =
      (e.DeleteFile l2 f2).DeleteFile l1 f1 := by
    simp [DeleteFile, Finset.Insert.comm (l1, f1) (l2, f2)]
  refine ⟨?_, idem, ?_, ?_, comm⟩
  · simp [DeleteFile, GetDeletedFiles]
  · rw [idem]
  · rw [comm]

end VersionEdit

end rocksdb

namespace rocksdb

namespace VersionEdit

/-- C8: a successful eleven-argument `AddFile` appends exactly one pair
`(level, f)` at the end of `GetNewFiles()`, the earlier pairs and every other
field of the edit being unchanged; `f` is a default-constructed
`FileMetaData` except for `fd = FileDescriptor(file, path_id, size)` and the
seven fields given as arguments, and `AddFile(level, f)` with that `f`
produces the same edit. -/
theorem AddFile_appends_one (kMaxSequenceNumber : Nat) (e : VersionEdit) (level : Int)
    (file file_path_id file_size : Nat) (range_set : List InternalKey)
    (smallest_seqno largest_seqno : Nat) (marked_for_compaction : Bool)
    (partial_removed compact_to_level meta_level : Nat)
    (h : smallest_seqno ≤ largest_seqno) :
    let f : FileMetaData :=
      { FileMetaData.ctor kMaxSequenceNumber with
        fd := FileDescriptor.mk3 file file_path_id file_size
        range_set := range_set
        smallest_seqno := smallest_seqno
        largest_seqno := largest_seqno
        marked_for_compaction := marked_for_compaction
        partial_removed := partial_removed
        compact_to_level := compact_to_level
        meta_level := meta_level }
    ∃ e1 : VersionEdit,
      AddFile kMaxSequenceNumber e level file file_path_id file_size range_set
        smallest_seqno largest_seqno marked_for_compaction partial_removed
        compact_to_level meta_level = .ok e1 ∧
      e1.GetNewFiles = e.GetNewFiles ++ [(level, f)] ∧
      e1.GetNewFiles.length = e.GetNewFiles.length + 1 ∧
      e1 = { e with new_files_ := e.new_files_ ++ [(level, f)] } ∧
      f.table_reader_handle = none ∧ f.stats.num_reads_sampled = 0 ∧
      f.compensated_file_size = 0 ∧ f.num_entries = 0 ∧ f.num_deletions = 0 ∧
      f.raw_key_size = 0 ∧ f.raw_value_size = 0 ∧ f.refs = 0 ∧
      f.being_compacted = false ∧ f.init_stats_from_file = false ∧
      e.AddFileMeta level f = .ok e1 := by
  intro f
  refine ⟨{ e with new_files_ := e.new_files_ ++ [(level, f)] }, ?_, rfl, ?_, rfl,
    rfl, rfl, rfl, rfl, rfl, rfl, rfl, rfl, rfl, rfl, ?_⟩
  · simp [AddFile, h, f]
  · simp [GetNewFiles]
  · simp [AddFileMeta, h, f]

/-- Witness of C8: adding file 7 at level 1 with sequence numbers 10 and 20 to
the blank edit. -/
theorem AddFile_appends_one_witness :
    (10 : Nat) ≤ 20 ∧
    ∃ e1 : VersionEdit,
      AddFile 99 blank 1 7 0 4096 [⟨"k1"⟩, ⟨"k9"⟩] 10 20 false 0 0 0 = .ok e1 ∧
      e1.GetNewFiles = blank.GetNewFiles ++
        [(1, { FileMetaData.ctor 99 with
                fd := FileDescriptor.mk3 7 0 4096
                range_set := [⟨"k1"⟩, ⟨"k9"⟩]
                smallest_seqno := 10
                largest_seqno := 20
                marked_for_compaction := false
                partial_removed := 0
                compact_to_level := 0
                meta_level := 0 })] :=
  ⟨by decide,
    let ⟨e1, h1, h2, _⟩ :=
      AddFile_appends_one 99 blank 1 7 0 4096 [⟨"k1"⟩, ⟨"k9"⟩] 10 20 false 0 0 0
        (by decide)
    ⟨e1, h1, h2⟩⟩

/-- C10: adds and deletes in one edit are independent. `DeleteFile` leaves
`GetNewFiles()` unchanged and a successful `AddFile` (either overload) leaves
`GetDeletedFiles()` unchanged; on an edit with no entries,
`AddFile(1, 7, 0, 4096, ..., 10, 20, ...)` followed by `DeleteFile(1, 7)`
gives `GetNewFiles()` holding exactly that add, `GetDeletedFiles() = {(1, 7)}`
and `NumEntries() = 2`. -/
theorem adds_and_deletes_independent (kMaxSequenceNumber : Nat) (e : VersionEdit)
    (level : Int) (file file_path_id file_size : Nat) (range_set : List InternalKey)
    (smallest_seqno largest_seqno : Nat) (marked_for_compaction : Bool)
    (partial_removed compact_to_level meta_level : Nat) (f : FileMetaData) :
    (e.DeleteFile level file).GetNewFiles = e.GetNewFiles ∧
    (∀ e1, AddFile kMaxSequenceNumber e level file file_path_id file_size range_set
        smallest_seqno largest_seqno marked_for_compaction partial_removed
        compact_to_level meta_level = .ok e1 →
      e1.GetDeletedFiles = e.GetDeletedFiles) ∧
    (∀ e1, e.AddFileMeta level f = .ok e1 → e1.GetDeletedFiles = e.GetDeletedFiles) ∧
    (e.NumEntries = 0 →
      ∃ e1, AddFile kMaxSequenceNumber e 1 7 0 4096 range_set 10 20
          marked_for_compaction partial_removed compact_to_level meta_level = .ok e1 ∧
        (e1.DeleteFile 1 7).GetNewFiles =
          [(1, { FileMetaData.ctor kMaxSequenceNumber with
                  fd := FileDescriptor.mk3 7 0 4096
                  range_set := range_set
                  smallest_seqno := 10
                  largest_seqno := 20
                  marked_for_compaction := marked_for_compaction
                  partial_removed := partial_removed
                  compact_to_level := compact_to_level
                  meta_level := meta_level })] ∧
        (e1.DeleteFile 1 7).GetDeletedFiles = {(1, 7)} ∧
        (e1.DeleteFile 1 7).NumEntries = 2) := by
  refine ⟨rfl, ?_, ?_, ?_⟩
  · intro e1 h1
    unfold AddFile at h1
    split at h1
    · simp only [Except.ok.injEq] at h1
      subst h1
      rfl
    · simp at h1
  · intro e1 h1
    unfold AddFileMeta at h1
    split at h1
    · simp only [Except.ok.injEq] at h1
      subst h1
      rfl
    · simp at h1
  · intro h0
    have hnew : e.new_files_ = [] := by
      have : e.new_files_.length = 0 := by unfold NumEntries at h0; omega
      exact List.length_eq_zero.mp this
    have hdel : e.deleted_files_ = ∅ := by
      have : e.deleted_files_.card = 0 := by unfold NumEntries at h0; omega
      exact Finset.card_eq_zero.mp this
    refine ⟨_, (by unfold AddFile; rw [if_pos (by decide)]), ?_, ?_, ?_⟩
    · simp [DeleteFile, GetNewFiles, hnew]
    · simp [DeleteFile, GetDeletedFiles, hdel]
    · simp [DeleteFile, NumEntries, hnew, hdel]

/-- Witness of C10 on the blank edit, with range set `[k1, k9]`. -/
theorem adds_and_deletes_independent_witness :
    blank.NumEntries = 0 ∧
    ∃ e1, AddFile 99 blank 1 7 0 4096 [⟨"k1"⟩, ⟨"k9"⟩] 10 20 false 0 0 0 = .ok e1 ∧
      (e1.DeleteFile 1 7).GetNewFiles =
        [(1, { FileMetaData.ctor 99 with
                fd := FileDescriptor.mk3 7 0 4096
                range_set := [⟨"k1"⟩, ⟨"k9"⟩]
                smallest_seqno := 10
                largest_seqno := 20
                marked_for_compaction := false
                partial_removed := 0
                compact_to_level := 0
                meta_level := 0 })] ∧
      (e1.DeleteFile 1 7).GetDeletedFiles = {(1, 7)} ∧
      (e1.DeleteFile 1 7).NumEntries = 2 :=
  ⟨by decide,
    (adds_and_deletes_independent 99 blank 1 7 0 4096 [⟨"k1"⟩, ⟨"k9"⟩] 10 20 false 0 0 0
      (FileMetaData.ctor 99)).2.2.2 (by decide)⟩

end VersionEdit

end rocksdb

namespace rocksdb

namespace VersionEdit

/-! ## Sequences of mutator calls -/

theorem callAll_cons_ok (k : Nat) (e e2 : VersionEdit) (m : Mutator) (ms : List Mutator)
    (h : callAll k e (m :: ms) = .ok e2) :
    ∃ e1, call k e m = .ok e1 ∧ callAll k e1 ms = .ok e2 := by
  unfold callAll at h
  split at h
  · next e1 h1 => exact ⟨e1, h1, h⟩
  · simp at h

theorem callAll_append_ok (k : Nat) (pre post : List Mutator) :
    ∀ e e2 : VersionEdit, callAll k e (pre ++ post) = .ok e2 →
      ∃ e1, callAll k e pre = .ok e1 ∧ callAll k e1 post = .ok e2 := by
  induction pre with
  | nil => intro e e2 h; exact ⟨e, rfl, h⟩
  | cons m ms ih =>
    intro e e2 h
    obtain ⟨e1, h1, h2⟩ := callAll_cons_ok k e e2 m (ms ++ post) h
    obtain ⟨e3, h3, h4⟩ := ih e1 e2 h2
    refine ⟨e3, ?_, h4⟩
    unfold callAll
    rw [h1]
    exact h3

/-- What one successful call does to the lifecycle flags and to the entries:
a call other than `AddColumnFamily`/`DropColumnFamily` keeps both flags, a
call other than `AddFile`/`DeleteFile` keeps both containers, and a
successful lifecycle call starts with both flags false and no entry and ends
with exactly one flag set. -/
theorem call_ok_effect (k : Nat) (e e1 : VersionEdit) (m : Mutator)
    (h : call k e m = .ok e1) :
    (m.isLifecycleOp = false →
      e1.is_column_family_add_ = e.is_column_family_add_ ∧
      e1.is_column_family_drop_ = e.is_column_family_drop_) ∧
    (m.isFileOp = false →
      e1.new_files_ = e.new_files_ ∧ e1.deleted_files_ = e.deleted_files_) ∧
    (m.isLifecycleOp = true →
      e.is_column_family_add_ = false ∧ e.is_column_family_drop_ = false ∧
      e.NumEntries = 0 ∧
      e1.is_column_family_add_ ≠ e1.is_column_family_drop_) := by
  cases m with
  | AddFile level file file_path_id file_size range_set smallest_seqno largest_seqno
      marked_for_compaction partial_removed compact_to_level meta_level =>
    simp only [call, AddFile] at h
    split at h
    · simp only [Except.ok.injEq] at h
      subst h
      simp [Mutator.isLifecycleOp, Mutator.isFileOp]
    · simp at h
  | AddFileMeta level f =>
    simp only [call, AddFileMeta] at h
    split at h
    · simp only [Except.ok.injEq] at h
      subst h
      simp [Mutator.isLifecycleOp, Mutator.isFileOp]
    · simp at h
  | AddColumnFamily name =>
    simp only [call, AddColumnFamily] at h
    split at h
    · simp at h
    · split at h
      · simp at h
      · split at h
        · simp at h
        · simp only [Except.ok.injEq] at h
          subst h
          simp_all [Mutator.isLifecycleOp, Mutator.isFileOp]
  | DropColumnFamily =>
    simp only [call, DropColumnFamily] at h
    split at h
    · simp at h
    · split at h
      · simp at h
      · split at h
        · simp at h
        · simp only [Except.ok.injEq] at h
          subst h
          simp_all [Mutator.isLifecycleOp, Mutator.isFileOp]
  | _ =>
    simp only [call, Except.ok.injEq] at h
    subst h
    simp [Mutator.isLifecycleOp, Mutator.isFileOp, SetComparatorName, SetLogNumber,
      SetPrevLogNumber, SetNextFile, SetLastSequence, SetMaxColumnFamily, DeleteFile,
      SetColumnFamily]

end VersionEdit

end rocksdb

namespace rocksdb

namespace VersionEdit

theorem call_flags_step (k : Nat) (e e1 : VersionEdit) (m : Mutator)
    (h : call k e m = .ok e1) :
    (¬ (e.is_column_family_add_ = true ∧ e.is_column_family_drop_ = true) →
      ¬ (e1.is_column_family_add_ = true ∧ e1.is_column_family_drop_ = true)) ∧
    (e.IsColumnFamilyManipulation = true → e1.IsColumnFamilyManipulation = true) := by
  obtain ⟨hkeep, _, hlife⟩ := call_ok_effect k e e1 m h
  unfold IsColumnFamilyManipulation
  cases hm : m.isLifecycleOp with
  | false =>
    obtain ⟨ha, hd⟩ := hkeep hm
    rw [ha, hd]
    exact ⟨id, id⟩
  | true =>
    obtain ⟨ha, hd, _, hne⟩ := hlife hm
    rw [ha, hd]
    constructor
    · intro _ hboth
      exact hne (hboth.1.trans hboth.2.symm)
    · simp

theorem callAll_flags (k : Nat) (ms : List Mutator) :
    ∀ e e1 : VersionEdit, callAll k e ms = .ok e1 →
      (¬ (e.is_column_family_add_ = true ∧ e.is_column_family_drop_ = true) →
        ¬ (e1.is_column_family_add_ = true ∧ e1.is_column_family_drop_ = true)) ∧
      (e.IsColumnFamilyManipulation = true → e1.IsColumnFamilyManipulation = true) := by
  induction ms with
  | nil =>
    intro e e1 h
    simp only [callAll, Except.ok.injEq] at h
    subst h
    exact ⟨id, id⟩
  | cons m ms ih =>
    intro e e1 h
    obtain ⟨e2, h1, h2⟩ := callAll_cons_ok k e e1 m ms h
    obtain ⟨a1, b1⟩ := call_flags_step k e e2 m h1
    obtain ⟨a2, b2⟩ := ih e2 e1 h2
    exact ⟨fun hx => a2 (a1 hx), fun hx => b2 (b1 hx)⟩

theorem lifecycle_call_fails_of_flag (e : VersionEdit)
    (h : e.IsColumnFamilyManipulation = true) :
    (∀ name, e.AddColumnFamily name = .error e) ∧ e.DropColumnFamily = .error e := by
  unfold IsColumnFamilyManipulation at h
  unfold AddColumnFamily DropColumnFamily
  cases hd : e.is_column_family_drop_ <;> cases ha : e.is_column_family_add_ <;>
    simp_all

/-- C6: starting from an edit with both lifecycle flags false, after any
sequence of mutator calls in which no assertion fails the two flags are not
both true, and once one of them is true, no `AddColumnFamily` or
`DropColumnFamily` call succeeds after any further successful calls. -/
theorem lifecycle_flags_exclusive (kMaxSequenceNumber : Nat) (e e1 : VersionEdit)
    (ms : List Mutator)
    (h0 : e.is_column_family_add_ = false ∧ e.is_column_family_drop_ = false)
    (hrun : callAll kMaxSequenceNumber e ms = .ok e1) :
    ¬ (e1.is_column_family_add_ = true ∧ e1.is_column_family_drop_ = true) ∧
    (e1.IsColumnFamilyManipulation = true →
      ∀ (ms2 : List Mutator) (e2 : VersionEdit),
        callAll kMaxSequenceNumber e1 ms2 = .ok e2 →
          (∀ name, e2.AddColumnFamily name = .error e2) ∧
          e2.DropColumnFamily = .error e2) := by
  constructor
  · apply (callAll_flags kMaxSequenceNumber ms e e1 hrun).1
    rw [h0.1]
    simp
  · intro hflag ms2 e2 hrun2
    exact lifecycle_call_fails_of_flag e2
      ((callAll_flags kMaxSequenceNumber ms2 e1 e2 hrun2).2 hflag)

/-- Witness of C6: on the blank edit, `SetLogNumber(5)` then
`AddColumnFamily("cf1")` succeed and leave only the add flag set; a later
`SetColumnFamily(3)` succeeds, after which `AddColumnFamily` and
`DropColumnFamily` both fail. -/
theorem lifecycle_flags_exclusive_witness :
    (blank.is_column_family_add_ = false ∧ blank.is_column_family_drop_ = false) ∧
    callAll 99 blank [.SetLogNumber 5, .AddColumnFamily "cf1"] = .ok lifecycleExample ∧
    ¬ (lifecycleExample.is_column_family_add_ = true ∧
        lifecycleExample.is_column_family_drop_ = true) ∧
    lifecycleExample.IsColumnFamilyManipulation = true ∧
    callAll 99 lifecycleExample [.SetColumnFamily 3] =
      .ok (lifecycleExample.SetColumnFamily 3) ∧
    (lifecycleExample.SetColumnFamily 3).AddColumnFamily "cf2" =
      .error (lifecycleExample.SetColumnFamily 3) ∧
    (lifecycleExample.SetColumnFamily 3).DropColumnFamily =
      .error (lifecycleExample.SetColumnFamily 3) :=
  have h := lifecycle_flags_exclusive 99 blank lifecycleExample
    [.SetLogNumber 5, .AddColumnFamily "cf1"] ⟨rfl, rfl⟩ rfl
  have h2 := h.2 rfl [.SetColumnFamily 3] (lifecycleExample.SetColumnFamily 3) rfl
  ⟨⟨rfl, rfl⟩, rfl, h.1, rfl, rfl, h2.1 "cf2", h2.2⟩

end VersionEdit

end rocksdb

namespace rocksdb

namespace VersionEdit

theorem callAll_keeps_flags (k : Nat) (ms : List Mutator) :
    ∀ e e1 : VersionEdit, (∀ m ∈ ms, m.isLifecycleOp = false) →
      callAll k e ms = .ok e1 →
      e1.IsColumnFamilyManipulation = e.IsColumnFamilyManipulation := by
  induction ms with
  | nil =>
    intro e e1 _ h
    simp only [callAll, Except.ok.injEq] at h
    rw [h]
  | cons m ms ih =>
    intro e e1 hms h
    obtain ⟨e2, h1, h2⟩ := callAll_cons_ok k e e1 m ms h
    obtain ⟨ha, hd⟩ := (call_ok_effect k e e2 m h1).1 (hms m (List.mem_cons_self m ms))
    rw [ih e2 e1 (fun x hx => hms x (List.mem_cons_of_mem m hx)) h2]
    unfold IsColumnFamilyManipulation
    rw [ha, hd]

theorem callAll_keeps_no_entries (k : Nat) (ms : List Mutator) :
    ∀ e e1 : VersionEdit, (∀ m ∈ ms, m.isFileOp = false) →
      callAll k e ms = .ok e1 →
      (e.IsColumnFamilyManipulation = true → e.NumEntries = 0) →
      (e1.IsColumnFamilyManipulation = true → e1.NumEntries = 0) := by
  induction ms with
  | nil =>
    intro e e1 _ h
    simp only [callAll, Except.ok.injEq] at h
    rw [h]
    exact id
  | cons m ms ih =>
    intro e e1 hms h hinv
    obtain ⟨e2, h1, h2⟩ := callAll_cons_ok k e e1 m ms h
    obtain ⟨hkeep, hfiles, hlife⟩ := call_ok_effect k e e2 m h1
    obtain ⟨hnew, hdel⟩ := hfiles (hms m (List.mem_cons_self m ms))
    have hnum : e2.NumEntries = e.NumEntries := by
      unfold NumEntries
      rw [hnew, hdel]
    apply ih e2 e1 (fun x hx => hms x (List.mem_cons_of_mem m hx)) h2
    intro hflag
    rw [hnum]
    cases hm : m.isLifecycleOp with
    | false =>
      obtain ⟨ha, hd⟩ := hkeep hm
      apply hinv
      unfold IsColumnFamilyManipulation at hflag ⊢
      rw [← ha, ← hd]
      exact hflag
    | true => exact (hlife hm).2.2.1

/-- C4, as the code has it: `AddColumnFamily` and `DropColumnFamily` are the
calls that check for entries, `AddFile` and `DeleteFile` do not look at the
lifecycle flags. From an edit without lifecycle flag, after successful
mutator calls in which no `AddFile` or `DeleteFile` call comes after an
`AddColumnFamily` or `DropColumnFamily` call, `IsColumnFamilyManipulation()`
implies `NumEntries() = 0`. -/
theorem lifecycle_implies_no_entries (kMaxSequenceNumber : Nat) (e e2 : VersionEdit)
    (pre post : List Mutator)
    (h0 : e.IsColumnFamilyManipulation = false)
    (hpre : ∀ m ∈ pre, m.isLifecycleOp = false)
    (hpost : ∀ m ∈ post, m.isFileOp = false)
    (hrun : callAll kMaxSequenceNumber e (pre ++ post) = .ok e2) :
    e2.IsColumnFamilyManipulation = true → e2.NumEntries = 0 := by
  obtain ⟨e1, h1, h2⟩ := callAll_append_ok kMaxSequenceNumber pre post e e2 hrun
  have hflag : e1.IsColumnFamilyManipulation = false := by
    rw [callAll_keeps_flags kMaxSequenceNumber pre e e1 hpre h1]
    exact h0
  apply callAll_keeps_no_entries kMaxSequenceNumber post e1 e2 hpost h2
  rw [hflag]
  simp

/-- Witness of C4 as amended: on the blank edit, `SetLogNumber(5)` followed by
`AddColumnFamily("cf1")` gives a lifecycle record with no entries. -/
theorem lifecycle_implies_no_entries_witness :
    blank.IsColumnFamilyManipulation = false ∧
    (∀ m ∈ [Mutator.SetLogNumber 5], m.isLifecycleOp = false) ∧
    (∀ m ∈ [Mutator.AddColumnFamily "cf1"], m.isFileOp = false) ∧
    callAll 99 blank ([.SetLogNumber 5] ++ [.AddColumnFamily "cf1"]) =
      .ok lifecycleExample ∧
    lifecycleExample.IsColumnFamilyManipulation = true ∧
    lifecycleExample.NumEntries = 0 :=
  ⟨rfl, by simp [Mutator.isLifecycleOp], by simp [Mutator.isFileOp], rfl, rfl,
    lifecycle_implies_no_entries 99 blank lifecycleExample [.SetLogNumber 5]
      [.AddColumnFamily "cf1"] rfl (by simp [Mutator.isLifecycleOp])
      (by simp [Mutator.isFileOp]) rfl rfl⟩

/-- Counterexample to C4 as stated: on the blank edit `AddColumnFamily("cf1")`
succeeds, and the following `AddFile(1, 7, 0, 4096, [k1, k9], 10, 20, ...)` is
not rejected; the edit then has a lifecycle flag and one entry. -/
theorem lifecycle_then_AddFile_counterexample :
    ∃ e1 e2 : VersionEdit,
      blank.AddColumnFamily "cf1" = .ok e1 ∧
      AddFile 99 e1 1 7 0 4096 [⟨"k1"⟩, ⟨"k9"⟩] 10 20 false 0 0 0 = .ok e2 ∧
      callAll 99 blank [.AddColumnFamily "cf1",
        .AddFile 1 7 0 4096 [⟨"k1"⟩, ⟨"k9"⟩] 10 20 false 0 0 0] = .ok e2 ∧
      e2.IsColumnFamilyManipulation = true ∧
      e2.NumEntries = 1 :=
  ⟨_, _, rfl, rfl, rfl, rfl, rfl⟩

end VersionEdit

end rocksdb

/-! ## The short file name of a log line -/

theorem strrchr_eq_none (c : Char) :
    ∀ s : List Char, strrchr s c = none ↔ c ∉ s := by
  intro s
  induction s with
  | nil => simp [strrchr]
  | cons x xs ih =>
    unfold strrchr
    cases h : strrchr xs c with
    | some i =>
      have hmem : c ∈ xs := by
        by_contra hc
        rw [ih.mpr hc] at h
        exact Option.noConfusion h
      simp [hmem]
    | none =>
      have hnot : c ∉ xs := ih.mp h
      by_cases hx : x = c
      · simp [hx]
      · simp [hx, hnot, Ne.symm hx]

theorem strrchr_eq_some (c : Char) :
    ∀ (s : List Char) (i : Nat), strrchr s c = some i →
      s = s.take i ++ c :: s.drop (i + 1) ∧ c ∉ s.drop (i + 1) := by
  intro s
  induction s with
  | nil => intro i h; simp [strrchr] at h
  | cons x xs ih =>
    intro i h
    unfold strrchr at h
    cases hxs : strrchr xs c with
    | some j =>
      rw [hxs] at h
      simp only [Option.some.injEq] at h
      subst h
      obtain ⟨h1, h2⟩ := ih j hxs
      refine ⟨?_, by simpa using h2⟩
      simp only [List.take_succ_cons, List.drop_succ_cons, List.cons_append]
      rw [← h1]
    | none =>
      rw [hxs] at h
      by_cases hx : x = c
      · simp only [hx, if_true, Option.some.injEq] at h
        subst h
        subst hx
        exact ⟨by simp, by simpa using (strrchr_eq_none x xs).mp hxs⟩
      · simp [hx] at h

/-- C19: built without `OS_WIN`, `RocksLogShorterFileName(file)` is the part
of `file` after its last `/`, and `file` itself when it has no `/`; the
result has no `/`, and the function leaves its own result unchanged. -/
theorem RocksLogShorterFileName_spec (file : List Char) :
    ('/' ∈ file → ∃ dir : List Char,
      file = dir ++ '/' :: RocksLogShorterFileName file) ∧
    ('/' ∉ file → RocksLogShorterFileName file = file) ∧
    '/' ∉ RocksLogShorterFileName file ∧
    RocksLogShorterFileName (RocksLogShorterFileName file) =
      RocksLogShorterFileName file := by
  have hnone : ∀ s : List Char, '/' ∉ s → RocksLogShorterFileName s = s := by
    intro s hs
    unfold RocksLogShorterFileName
    rw [(strrchr_eq_none '/' s).mpr hs]
  have hfree : '/' ∉ RocksLogShorterFileName file := by
    unfold RocksLogShorterFileName
    cases h : strrchr file '/' with
    | some p => exact (strrchr_eq_some '/' file p h).2
    | none => exact (strrchr_eq_none '/' file).mp h
  refine ⟨?_, hnone file, hfree, hnone _ hfree⟩
  intro hmem
  unfold RocksLogShorterFileName
  cases h : strrchr file '/' with
  | some p => exact ⟨file.take p, (strrchr_eq_some '/' file p h).1⟩
  | none => exact absurd hmem ((strrchr_eq_none '/' file).mp h)

/-- Witness of C19 on the path `db/version_edit.cc`. -/
theorem RocksLogShorterFileName_spec_witness :
    '/' ∈ "db/version_edit.cc".toList ∧
    RocksLogShorterFileName "db/version_edit.cc".toList = "version_edit.cc".toList ∧
    ∃ dir : List Char, "db/version_edit.cc".toList =
      dir ++ '/' :: RocksLogShorterFileName "db/version_edit.cc".toList :=
  ⟨by decide, by decide,
    (RocksLogShorterFileName_spec "db/version_edit.cc".toList).1 (by decide)⟩

namespace rocksdb

/-! ## Path ids beyond two bits -/

theorem pack_eq_mod_four (n p : Nat) (hn : n < 2 ^ 62) :
    PackFileNumberAndPathId n p = 2 ^ 62 * (p % 4) + n := by
  unfold PackFileNumberAndPathId
  rw [pack_eq_add n p hn]
  omega

/-- C18: for a number `n < 2^62` and a 32-bit path id `p`, the descriptor
`FileDescriptor(n, p, s)` has `GetNumber() = n` and `GetPathId() = p mod 4`,
so `GetPathId()` is at most 3 and the path ids `p` and `p + 4` give the same
packed identity. -/
theorem FileDescriptor.path_id_two_bits (n p s : Nat) (hn : n < 2 ^ 62)
    (_hp : p < 2 ^ 32) :
    (FileDescriptor.mk3 n p s).GetNumber = n ∧
    (FileDescriptor.mk3 n p s).GetPathId = p % 4 ∧
    (FileDescriptor.mk3 n p s).GetPathId ≤ 3 ∧
    (FileDescriptor.mk3 n (p + 4) s).packed_number_and_path_id =
      (FileDescriptor.mk3 n p s).packed_number_and_path_id := by
  have hk : kFileNumberMask + 1 = 2 ^ 62 := by unfold kFileNumberMask; norm_num
  have hnum : (FileDescriptor.mk3 n p s).GetNumber = n := by
    show PackFileNumberAndPathId n p &&& kFileNumberMask = n
    rw [and_mask_eq_mod, pack_eq_mod_four n p hn]
    omega
  have hpath : (FileDescriptor.mk3 n p s).GetPathId = p % 4 := by
    show (PackFileNumberAndPathId n p / (kFileNumberMask + 1)) % 2 ^ 32 = p % 4
    rw [pack_eq_mod_four n p hn, hk]
    omega
  refine ⟨hnum, hpath, ?_, ?_⟩
  · rw [hpath]
    omega
  · show PackFileNumberAndPathId n (p + 4) = PackFileNumberAndPathId n p
    rw [pack_eq_mod_four n p hn, pack_eq_mod_four n (p + 4) hn]
    omega

/-- Witness of C18 at number 7 and path ids 5 and 9, both read back as 1. -/
theorem FileDescriptor.path_id_two_bits_witness :
    (7 < 2 ^ 62 ∧ 5 < 2 ^ 32) ∧
    (FileDescriptor.mk3 7 5 4096).GetNumber = 7 ∧
    (FileDescriptor.mk3 7 5 4096).GetPathId = 5 % 4 ∧
    (FileDescriptor.mk3 7 5 4096).GetPathId ≤ 3 ∧
    (FileDescriptor.mk3 7 (5 + 4) 4096).packed_number_and_path_id =
      (FileDescriptor.mk3 7 5 4096).packed_number_and_path_id :=
  ⟨by norm_num, FileDescriptor.path_id_two_bits 7 5 4096 (by norm_num) (by norm_num)⟩

namespace VersionEdit

/-! ## Global-field setters -/

/-- C17: each of the six global-field setters sets its own presence flag and
its own value and changes no other field, so `NumEntries()` is unchanged, and
two calls of the same setter leave the state of the last call. -/
theorem setters_frame (e : VersionEdit) (name name2 : String) (a b : Nat) :
    (e.SetComparatorName name = { e with has_comparator_ := true, comparator_ := name } ∧
      (e.SetComparatorName name).NumEntries = e.NumEntries ∧
      (e.SetComparatorName name).SetComparatorName name2 = e.SetComparatorName name2) ∧
    (e.SetLogNumber a = { e with has_log_number_ := true, log_number_ := a } ∧
      (e.SetLogNumber a).NumEntries = e.NumEntries ∧
      (e.SetLogNumber a).SetLogNumber b = e.SetLogNumber b) ∧
    (e.SetPrevLogNumber a =
        { e with has_prev_log_number_ := true, prev_log_number_ := a } ∧
      (e.SetPrevLogNumber a).NumEntries = e.NumEntries ∧
      (e.SetPrevLogNumber a).SetPrevLogNumber b = e.SetPrevLogNumber b) ∧
    (e.SetNextFile a =
        { e with has_next_file_number_ := true, next_file_number_ := a } ∧
      (e.SetNextFile a).NumEntries = e.NumEntries ∧
      (e.SetNextFile a).SetNextFile b = e.SetNextFile b) ∧
    (e.SetLastSequence a = { e with has_last_sequence_ := true, last_sequence_ := a } ∧
      (e.SetLastSequence a).NumEntries = e.NumEntries ∧
      (e.SetLastSequence a).SetLastSequence b = e.SetLastSequence b) ∧
    (e.SetMaxColumnFamily a =
        { e with has_max_column_family_ := true, max_column_family_ := a } ∧
      (e.SetMaxColumnFamily a).NumEntries = e.NumEntries ∧
      (e.SetMaxColumnFamily a).SetMaxColumnFamily b = e.SetMaxColumnFamily b) :=
  ⟨⟨rfl, rfl, rfl⟩, ⟨rfl, rfl, rfl⟩, ⟨rfl, rfl, rfl⟩, ⟨rfl, rfl, rfl⟩, ⟨rfl, rfl, rfl⟩,
    ⟨rfl, rfl, rfl⟩⟩

end VersionEdit

end rocksdb

namespace rocksdb

namespace FileMetaData

/-! ## The default-constructed file and its boundaries -/

/-- C15: a default-constructed `FileMetaData` has `refs = 0`, a range set of
two empty keys, a descriptor with number 0, path id 0 and size 0, zero
statistics, its three flags false, `partial_removed`, `compact_to_level` and
`meta_level` zero, `smallest_seqno = kMaxSequenceNumber` and
`largest_seqno = 0`; with `kMaxSequenceNumber > 0`, `AddFile(level, f)` on it
fails the assertion. -/
theorem ctor_fields (kMaxSequenceNumber : Nat) (e : VersionEdit) (level : Int)
    (hk : 0 < kMaxSequenceNumber) :
    (ctor kMaxSequenceNumber).refs = 0 ∧
    (ctor kMaxSequenceNumber).range_set = [⟨""⟩, ⟨""⟩] ∧
    (∀ k ∈ (ctor kMaxSequenceNumber).range_set, k.size = 0) ∧
    (ctor kMaxSequenceNumber).fd = FileDescriptor.mk3 0 0 0 ∧
    (ctor kMaxSequenceNumber).fd.GetNumber = 0 ∧
    (ctor kMaxSequenceNumber).fd.GetPathId = 0 ∧
    (ctor kMaxSequenceNumber).fd.GetFileSize = 0 ∧
    (ctor kMaxSequenceNumber).compensated_file_size = 0 ∧
    (ctor kMaxSequenceNumber).num_entries = 0 ∧
    (ctor kMaxSequenceNumber).num_deletions = 0 ∧
    (ctor kMaxSequenceNumber).raw_key_size = 0 ∧
    (ctor kMaxSequenceNumber).raw_value_size = 0 ∧
    (ctor kMaxSequenceNumber).being_compacted = false ∧
    (ctor kMaxSequenceNumber).init_stats_from_file = false ∧
    (ctor kMaxSequenceNumber).marked_for_compaction = false ∧
    (ctor kMaxSequenceNumber).partial_removed = 0 ∧
    (ctor kMaxSequenceNumber).compact_to_level = 0 ∧
    (ctor kMaxSequenceNumber).meta_level = 0 ∧
    (ctor kMaxSequenceNumber).smallest_seqno = kMaxSequenceNumber ∧
    (ctor kMaxSequenceNumber).largest_seqno = 0 ∧
    e.AddFileMeta level (ctor kMaxSequenceNumber) = .error e := by
  have hnum : (FileDescriptor.mk3 0 0 0).GetNumber = 0 := by decide
  have hpath : (FileDescriptor.mk3 0 0 0).GetPathId = 0 := by decide
  refine ⟨rfl, rfl, ?_, rfl, hnum, hpath, rfl, rfl, rfl, rfl, rfl, rfl, rfl,
    rfl, rfl, rfl, rfl, rfl, rfl, rfl, ?_⟩
  · intro k hmem
    simp only [ctor, List.replicate, List.mem_cons, List.mem_singleton] at hmem
    rcases hmem with h | h | h
    · rw [h]; rfl
    · rw [h]; rfl
    · simp at h
  · unfold VersionEdit.AddFileMeta
    have : ¬ (ctor kMaxSequenceNumber).smallest_seqno ≤
        (ctor kMaxSequenceNumber).largest_seqno := by
      show ¬ kMaxSequenceNumber ≤ 0
      omega
    rw [if_neg this]

/-- Witness of C15 with the constant taken as `2^56 - 1` and the blank edit. -/
theorem ctor_fields_witness :
    0 < 2 ^ 56 - 1 ∧
    (ctor (2 ^ 56 - 1)).smallest_seqno = 2 ^ 56 - 1 ∧
    (ctor (2 ^ 56 - 1)).largest_seqno = 0 ∧
    VersionEdit.blank.AddFileMeta 1 (ctor (2 ^ 56 - 1)) = .error VersionEdit.blank :=
  have h := ctor_fields (2 ^ 56 - 1) VersionEdit.blank 1 (by norm_num)
  ⟨by norm_num, h.2.2.2.2.2.2.2.2.2.2.2.2.2.2.2.2.2.2.1,
    h.2.2.2.2.2.2.2.2.2.2.2.2.2.2.2.2.2.2.2.1, h.2.2.2.2.2.2.2.2.2.2.2.2.2.2.2.2.2.2.2.2⟩

end FileMetaData

end rocksdb

namespace rocksdb

namespace FileMetaData

theorem UpdateBoundaries_pair (f : FileMetaData) (a b : InternalKey) (key : String)
    (seqno : Nat) (h : f.range_set = [a, b]) :
    ∃ f1, f.UpdateBoundaries key seqno = some f1 ∧
      f1.range_set = [if a.size = 0 then ⟨key⟩ else a, ⟨key⟩] ∧
      f1.smallest_seqno = min f.smallest_seqno seqno ∧
      f1.largest_seqno = max f.largest_seqno seqno := by
  unfold UpdateBoundaries smallest
  rw [h]
  by_cases ha : a.size = 0
  · simp [ha, modifyBack, InternalKey.DecodeFrom]
  · simp [ha, modifyBack, InternalKey.DecodeFrom, h]

theorem UpdateBoundariesAll_keys (calls : List (String × Nat)) :
    ∀ (f : FileMetaData) (a b : InternalKey), f.range_set = [a, b] → a.size ≠ 0 →
      ∃ f1, f.UpdateBoundariesAll calls = some f1 ∧
        f1.range_set = [a, (calls.getLast?.map (fun c => InternalKey.mk c.1)).getD b] := by
  induction calls with
  | nil => intro f a b h _; exact ⟨f, rfl, by simpa using h⟩
  | cons c rest ih =>
    intro f a b h ha
    obtain ⟨f1, h1, h2, _⟩ := UpdateBoundaries_pair f a b c.1 c.2 h
    rw [if_neg ha] at h2
    obtain ⟨f2, h3, h4⟩ := ih f1 a ⟨c.1⟩ h2 ha
    refine ⟨f2, ?_, ?_⟩
    · unfold UpdateBoundariesAll
      rw [h1]
      exact h3
    · rw [h4]
      cases rest with
      | nil => rfl
      | cons d ds =>
        obtain ⟨x, hx⟩ : ∃ x, (d :: ds).getLast? = some x :=
          ⟨_, List.getLast?_eq_getLast _ (List.cons_ne_nil _ _)⟩
        rw [List.getLast?_cons_cons, hx]
        rfl

theorem UpdateBoundariesAll_seqnos (calls : List (String × Nat)) :
    ∀ (f : FileMetaData) (a b : InternalKey), f.range_set = [a, b] →
      ∃ f1, f.UpdateBoundariesAll calls = some f1 ∧
        f.largest_seqno ≤ f1.largest_seqno ∧
        (∀ c ∈ calls, c.2 ≤ f1.largest_seqno) ∧
        (f1.largest_seqno = f.largest_seqno ∨ ∃ c ∈ calls, c.2 = f1.largest_seqno) ∧
        f1.smallest_seqno ≤ f.smallest_seqno ∧
        (∀ c ∈ calls, f1.smallest_seqno ≤ c.2) ∧
        (f1.smallest_seqno = f.smallest_seqno ∨
          ∃ c ∈ calls, c.2 = f1.smallest_seqno) := by
  induction calls with
  | nil =>
    intro f a b _
    exact ⟨f, rfl, le_refl _, by simp, Or.inl rfl, le_refl _, by simp, Or.inl rfl⟩
  | cons c rest ih =>
    intro f a b h
    obtain ⟨f1, h1, h2, hs, hl⟩ := UpdateBoundaries_pair f a b c.1 c.2 h
    have l1 : f.largest_seqno ≤ f1.largest_seqno := hl ▸ le_max_left _ _
    have l2 : c.2 ≤ f1.largest_seqno := hl ▸ le_max_right _ _
    have l3 : f1.largest_seqno = f.largest_seqno ∨ f1.largest_seqno = c.2 :=
      hl ▸ max_choice _ _
    have s1 : f1.smallest_seqno ≤ f.smallest_seqno := hs ▸ min_le_left _ _
    have s2 : f1.smallest_seqno ≤ c.2 := hs ▸ min_le_right _ _
    have s3 : f1.smallest_seqno = f.smallest_seqno ∨ f1.smallest_seqno = c.2 :=
      hs ▸ min_choice _ _
    obtain ⟨f2, g1, g2, g3, g4, g5, g6, g7⟩ := ih f1 _ _ h2
    refine ⟨f2, ?_, le_trans l1 g2, ?_, ?_, le_trans g5 s1, ?_, ?_⟩
    · unfold UpdateBoundariesAll
      rw [h1]
      exact g1
    · intro d hd
      rcases List.mem_cons.mp hd with hd | hd
      · rw [hd]; exact le_trans l2 g2
      · exact g3 d hd
    · rcases g4 with g4 | ⟨d, hd, hd2⟩
      · rcases l3 with l3 | l3
        · exact Or.inl (g4.trans l3)
        · exact Or.inr ⟨c, List.mem_cons_self c rest, (g4.trans l3).symm⟩
      · exact Or.inr ⟨d, List.mem_cons_of_mem c hd, hd2⟩
    · intro d hd
      rcases List.mem_cons.mp hd with hd | hd
      · rw [hd]; exact le_trans g5 s2
      · exact g6 d hd
    · rcases g7 with g7 | ⟨d, hd, hd2⟩
      · rcases s3 with s3 | s3
        · exact Or.inl (g7.trans s3)
        · exact Or.inr ⟨c, List.mem_cons_self c rest, (g7.trans s3).symm⟩
      · exact Or.inr ⟨d, List.mem_cons_of_mem c hd, hd2⟩

end FileMetaData

end rocksdb

namespace rocksdb

namespace FileMetaData

/-- C13: when keys `k_1 .. k_n` (`k_1` non-empty) are passed in order to
`UpdateBoundaries` on a default-constructed `FileMetaData`, afterwards
`smallest()` holds `k_1`, `largest()` holds `k_n` and `range_set` has length
2; one call on a pair whose first key is non-empty keeps `smallest()` and
overwrites `largest()`. -/
theorem UpdateBoundaries_records_keys (kMaxSequenceNumber : Nat) (k1 : String)
    (s1 : Nat) (rest : List (String × Nat)) (h1 : k1.length ≠ 0) :
    (∃ f1, (ctor kMaxSequenceNumber).UpdateBoundariesAll ((k1, s1) :: rest) = some f1 ∧
      f1.smallest = some ⟨k1⟩ ∧
      f1.largest = some ⟨(((k1, s1) :: rest).getLast (List.cons_ne_nil _ _)).1⟩ ∧
      f1.range_set.length = 2) ∧
    (∀ (f : FileMetaData) (a b : InternalKey) (key : String) (seqno : Nat),
      f.range_set = [a, b] → a.size ≠ 0 →
      ∃ f2, f.UpdateBoundaries key seqno = some f2 ∧
        f2.smallest = some a ∧ f2.largest = some ⟨key⟩ ∧ f2.range_set.length = 2) := by
  constructor
  · obtain ⟨f0, g1, g2, _⟩ :=
      UpdateBoundaries_pair (ctor kMaxSequenceNumber) ⟨""⟩ ⟨""⟩ k1 s1 rfl
    have hz : (InternalKey.mk "").size = 0 := rfl
    rw [if_pos hz] at g2
    obtain ⟨f1, g3, g4⟩ := UpdateBoundariesAll_keys rest f0 ⟨k1⟩ ⟨k1⟩ g2 h1
    refine ⟨f1, ?_, ?_, ?_, ?_⟩
    · unfold UpdateBoundariesAll
      rw [g1]
      exact g3
    · unfold smallest
      rw [g4]
      rfl
    · unfold largest
      rw [g4]
      cases rest with
      | nil => rfl
      | cons d ds =>
        have hx : (d :: ds).getLast? = some ((d :: ds).getLast (List.cons_ne_nil _ _)) :=
          List.getLast?_eq_getLast _ _
        rw [hx]
        rfl
    · rw [g4]
      rfl
  · intro f a b key seqno h ha
    obtain ⟨f2, g1, g2, _⟩ := UpdateBoundaries_pair f a b key seqno h
    rw [if_neg ha] at g2
    refine ⟨f2, g1, ?_, ?_, ?_⟩
    · unfold smallest; rw [g2]; rfl
    · unfold largest; rw [g2]; rfl
    · rw [g2]; rfl

/-- Witness of C13 with the keys `b`, `d`, `a` in this order. -/
theorem UpdateBoundaries_records_keys_witness :
    "b".length ≠ 0 ∧
    ∃ f1, (ctor 99).UpdateBoundariesAll [("b", 5), ("d", 3), ("a", 9)] = some f1 ∧
      f1.smallest = some ⟨"b"⟩ ∧
      f1.largest = some ⟨"a"⟩ ∧
      f1.range_set.length = 2 :=
  ⟨by decide, (UpdateBoundaries_records_keys 99 "b" 5 [("d", 3), ("a", 9)] (by decide)).1⟩

/-- C14: after a non-empty list of `UpdateBoundaries(k_i, s_i)` calls on a
default-constructed `FileMetaData`, `largest_seqno` is the largest `s_i`
and `smallest_seqno` is the smaller of `kMaxSequenceNumber` and the smallest
`s_i` (the smallest `s_i` when some `s_i <= kMaxSequenceNumber`); so
`smallest_seqno <= largest_seqno` and `AddFile(level, f)` succeeds on the
result. -/
theorem UpdateBoundaries_seqno_bounds (kMaxSequenceNumber : Nat) (e : VersionEdit)
    (level : Int) (c1 : String × Nat) (rest : List (String × Nat)) :
    ∃ f1, (ctor kMaxSequenceNumber).UpdateBoundariesAll (c1 :: rest) = some f1 ∧
      (∀ c ∈ c1 :: rest, c.2 ≤ f1.largest_seqno) ∧
      (∃ c ∈ c1 :: rest, c.2 = f1.largest_seqno) ∧
      f1.smallest_seqno ≤ kMaxSequenceNumber ∧
      (∀ c ∈ c1 :: rest, f1.smallest_seqno ≤ c.2) ∧
      (f1.smallest_seqno = kMaxSequenceNumber ∨
        ∃ c ∈ c1 :: rest, c.2 = f1.smallest_seqno) ∧
      ((∃ c ∈ c1 :: rest, c.2 ≤ kMaxSequenceNumber) →
        ∃ c ∈ c1 :: rest, c.2 = f1.smallest_seqno) ∧
      f1.smallest_seqno ≤ f1.largest_seqno ∧
      e.AddFileMeta level f1 =
        .ok { e with new_files_ := e.new_files_ ++ [(level, f1)] } := by
  obtain ⟨f1, g1, _, g3, g4, g5, g6, g7⟩ :=
    UpdateBoundariesAll_seqnos (c1 :: rest) (ctor kMaxSequenceNumber) ⟨""⟩ ⟨""⟩ rfl
  have hle : f1.smallest_seqno ≤ f1.largest_seqno :=
    le_trans (g6 c1 (List.mem_cons_self c1 rest)) (g3 c1 (List.mem_cons_self c1 rest))
  refine ⟨f1, g1, g3, ?_, g5, g6, g7, ?_, hle, ?_⟩
  · rcases g4 with g4 | g4
    · refine ⟨c1, List.mem_cons_self c1 rest, ?_⟩
      have h0 : c1.2 ≤ f1.largest_seqno := g3 c1 (List.mem_cons_self c1 rest)
      have h00 : f1.largest_seqno = 0 := g4
      omega
    · exact g4
  · rintro ⟨c, hc, hck⟩
    rcases g7 with g7 | g7
    · refine ⟨c, hc, ?_⟩
      have h0 : f1.smallest_seqno ≤ c.2 := g6 c hc
      have h00 : f1.smallest_seqno = kMaxSequenceNumber := g7
      omega
    · exact g7
  · unfold VersionEdit.AddFileMeta
    rw [if_pos hle]

/-- Witness of C14 with sequence numbers 5, 3, 9 and the constant `2^56 - 1`. -/
theorem UpdateBoundaries_seqno_bounds_witness :
    ∃ f1, (ctor (2 ^ 56 - 1)).UpdateBoundariesAll [("b", 5), ("d", 3), ("f", 9)] =
        some f1 ∧
      f1.largest_seqno = 9 ∧ f1.smallest_seqno = 3 ∧
      VersionEdit.blank.AddFileMeta 1 f1 =
        .ok { VersionEdit.blank with new_files_ := [(1, f1)] } :=
  let ⟨f1, g1, g2, _, _, g5, _, _, _, g9⟩ :=
    UpdateBoundaries_seqno_bounds (2 ^ 56 - 1) VersionEdit.blank 1 ("b", 5)
      [("d", 3), ("f", 9)]
  have hrun : (ctor (2 ^ 56 - 1)).UpdateBoundariesAll [("b", 5), ("d", 3), ("f", 9)] =
      some { ctor (2 ^ 56 - 1) with
        range_set := [⟨"b"⟩, ⟨"f"⟩], smallest_seqno := 3, largest_seqno := 9 } := by
    decide
  have hf : f1 = { ctor (2 ^ 56 - 1) with
      range_set := [⟨"b"⟩, ⟨"f"⟩], smallest_seqno := 3, largest_seqno := 9 } :=
    Option.some.inj (g1.symm.trans hrun)
  ⟨f1, g1, by rw [hf], by rw [hf], g9⟩

end FileMetaData

end rocksdb

namespace rocksdb

namespace VersionEdit

/-! ## What a sequence of calls leaves in the two containers -/

/-- The effect of one successful call on `new_files_` and `deleted_files_`:
an `AddFile` call appends one pair, whose range set is the one handed in, a
`DeleteFile` call inserts its pair, and any other call keeps both. -/
theorem call_ok_containers (k : Nat) (e e1 : VersionEdit) (m : Mutator)
    (h : call k e m = .ok e1) :
    ((m.isAddFile = false ∧ e1.new_files_ = e.new_files_) ∨
      (m.isAddFile = true ∧ ∃ p : Int × FileMetaData,
        e1.new_files_ = e.new_files_ ++ [p] ∧
        (m.rangeSetGiven = true → p.2.rangeSetWellFormed = true))) ∧
    e1.deleted_files_ =
      (match m.deletedPair with
        | some p => insert p e.deleted_files_
        | none => e.deleted_files_) := by
  cases m with
  | AddFile level file file_path_id file_size range_set smallest_seqno largest_seqno
      marked_for_compaction partial_removed compact_to_level meta_level =>
    simp only [call, AddFile] at h
    split at h
    · simp only [Except.ok.injEq] at h
      subst h
      refine ⟨Or.inr ⟨rfl, _, rfl, ?_⟩, rfl⟩
      intro hg
      exact hg
    · simp at h
  | AddFileMeta level f =>
    simp only [call, AddFileMeta] at h
    split at h
    · simp only [Except.ok.injEq] at h
      subst h
      refine ⟨Or.inr ⟨rfl, _, rfl, ?_⟩, rfl⟩
      intro hg
      exact hg
    · simp at h
  | AddColumnFamily name =>
    simp only [call, AddColumnFamily] at h
    split at h
    · simp at h
    · split at h
      · simp at h
      · split at h
        · simp at h
        · simp only [Except.ok.injEq] at h
          subst h
          exact ⟨Or.inl ⟨rfl, rfl⟩, rfl⟩
  | DropColumnFamily =>
    simp only [call, DropColumnFamily] at h
    split at h
    · simp at h
    · split at h
      · simp at h
      · split at h
        · simp at h
        · simp only [Except.ok.injEq] at h
          subst h
          exact ⟨Or.inl ⟨rfl, rfl⟩, rfl⟩
  | _ =>
    simp only [call, Except.ok.injEq] at h
    subst h
    exact ⟨Or.inl ⟨rfl, rfl⟩, rfl⟩

end VersionEdit

end rocksdb

namespace rocksdb

namespace VersionEdit

theorem rangeSetWellFormed_iff (f : FileMetaData) :
    f.rangeSetWellFormed = true ↔
      2 ≤ f.range_set.length ∧ f.range_set.length % 2 = 0 := by
  unfold FileMetaData.rangeSetWellFormed
  simp

theorem callAll_range_sets (k : Nat) (ms : List Mutator) :
    ∀ e e1 : VersionEdit,
      (∀ p ∈ e.new_files_, p.2.rangeSetWellFormed = true) →
      (∀ m ∈ ms, m.rangeSetGiven = true) →
      callAll k e ms = .ok e1 →
      ∀ p ∈ e1.new_files_, p.2.rangeSetWellFormed = true := by
  induction ms with
  | nil =>
    intro e e1 he _ h
    simp only [callAll, Except.ok.injEq] at h
    rw [← h]
    exact he
  | cons m ms ih =>
    intro e e1 he hms h
    obtain ⟨e2, h1, h2⟩ := callAll_cons_ok k e e1 m ms h
    apply ih e2 e1 ?_ (fun x hx => hms x (List.mem_cons_of_mem m hx)) h2
    rcases (call_ok_containers k e e2 m h1).1 with ⟨_, hsame⟩ | ⟨_, q, hq, hgood⟩
    · rw [hsame]
      exact he
    · intro p hp
      rw [hq] at hp
      rcases List.mem_append.mp hp with hp | hp
      · exact he p hp
      · rw [List.mem_singleton.mp hp]
        exact hgood (hms m (List.mem_cons_self m ms))

/-- C11, as the code has it: `AddFile` stores the range set it is handed
without looking at its length. On an edit whose new files have range sets of
even length at least 2, after successful mutator calls in which every
`AddFile` call is handed a range set of even length at least 2, every
`FileMetaData` in `GetNewFiles()` has a range set of even length at least 2,
and `smallest()` and `largest()` are defined for it. -/
theorem new_files_range_sets (kMaxSequenceNumber : Nat) (e e1 : VersionEdit)
    (ms : List Mutator)
    (he : ∀ p ∈ e.GetNewFiles,
      2 ≤ p.2.range_set.length ∧ p.2.range_set.length % 2 = 0)
    (hms : ∀ m ∈ ms, m.rangeSetGiven = true)
    (hrun : callAll kMaxSequenceNumber e ms = .ok e1) :
    ∀ p ∈ e1.GetNewFiles,
      (2 ≤ p.2.range_set.length ∧ p.2.range_set.length % 2 = 0) ∧
      p.2.smallest = p.2.range_set.head? ∧ p.2.smallest ≠ none ∧
      p.2.largest = p.2.range_set.getLast? ∧ p.2.largest ≠ none := by
  intro p hp
  have hwf : 2 ≤ p.2.range_set.length ∧ p.2.range_set.length % 2 = 0 :=
    (rangeSetWellFormed_iff p.2).mp
      (callAll_range_sets kMaxSequenceNumber ms e e1
        (fun q hq => (rangeSetWellFormed_iff q.2).mpr (he q hq)) hms hrun p hp)
  have hne : p.2.range_set ≠ [] := by
    intro hnil
    rw [hnil] at hwf
    simp at hwf
  refine ⟨hwf, rfl, ?_, rfl, ?_⟩
  · unfold FileMetaData.smallest
    cases hrs : p.2.range_set with
    | nil => exact absurd hrs hne
    | cons a t => simp
  · unfold FileMetaData.largest
    rw [List.getLast?_eq_getLast _ hne]
    simp

/-- Witness of C11 as amended: one `AddFile` with the range set `[k1, k9]` on
the blank edit. -/
theorem new_files_range_sets_witness :
    (∀ p ∈ blank.GetNewFiles,
      2 ≤ p.2.range_set.length ∧ p.2.range_set.length % 2 = 0) ∧
    (∀ m ∈ [Mutator.AddFile 1 7 0 4096 [⟨"k1"⟩, ⟨"k9"⟩] 10 20 false 0 0 0],
      m.rangeSetGiven = true) ∧
    ∃ e1, callAll 99 blank [.AddFile 1 7 0 4096 [⟨"k1"⟩, ⟨"k9"⟩] 10 20 false 0 0 0] =
        .ok e1 ∧
      ∀ p ∈ e1.GetNewFiles,
        (2 ≤ p.2.range_set.length ∧ p.2.range_set.length % 2 = 0) ∧
        p.2.smallest = p.2.range_set.head? ∧ p.2.smallest ≠ none ∧
        p.2.largest = p.2.range_set.getLast? ∧ p.2.largest ≠ none :=
  ⟨by simp [blank, GetNewFiles], by simp [Mutator.rangeSetGiven],
    _, rfl,
    new_files_range_sets 99 blank _
      [.AddFile 1 7 0 4096 [⟨"k1"⟩, ⟨"k9"⟩] 10 20 false 0 0 0]
      (by simp [blank, GetNewFiles]) (by simp [Mutator.rangeSetGiven]) rfl⟩

/-- Counterexample to C11 as stated: on the blank edit,
`AddFile(1, 7, 0, 4096, {}, 10, 20, ...)` with an empty range set succeeds,
and the stored `FileMetaData` has a range set of length 0, for which
`smallest()` and `largest()` are not defined. -/
theorem AddFile_empty_range_set_counterexample :
    ∃ (e1 : VersionEdit) (f : FileMetaData),
      AddFile 99 blank 1 7 0 4096 [] 10 20 false 0 0 0 = .ok e1 ∧
      e1.GetNewFiles = [(1, f)] ∧
      f.range_set.length = 0 ∧ f.smallest = none ∧ f.largest = none :=
  ⟨_, _, rfl, rfl, rfl, rfl, rfl⟩

end VersionEdit

end rocksdb

namespace rocksdb

namespace VersionEdit

theorem callAll_containers (k : Nat) (ms : List Mutator) :
    ∀ e e1 : VersionEdit, callAll k e ms = .ok e1 →
      e1.new_files_.length = e.new_files_.length + (ms.filter Mutator.isAddFile).length ∧
      e1.deleted_files_ = e.deleted_files_ ∪ (ms.filterMap Mutator.deletedPair).toFinset := by
  induction ms with
  | nil =>
    intro e e1 h
    simp only [callAll, Except.ok.injEq] at h
    rw [← h]
    simp
  | cons m ms ih =>
    intro e e1 h
    obtain ⟨e2, h1, h2⟩ := callAll_cons_ok k e e1 m ms h
    obtain ⟨ih1, ih2⟩ := ih e2 e1 h2
    obtain ⟨hnew, hdel⟩ := call_ok_containers k e e2 m h1
    constructor
    · rw [ih1]
      rcases hnew with ⟨hm, hsame⟩ | ⟨hm, q, hq, _⟩
      · rw [hsame, List.filter_cons, hm]
        simp
      · rw [hq, List.filter_cons, hm]
        simp
        omega
    · rw [ih2, hdel]
      cases hp : m.deletedPair with
      | none => simp [List.filterMap_cons, hp]
      | some p =>
        simp only [List.filterMap_cons, hp, List.toFinset_cons]
        ext x
        simp only [Finset.mem_union, Finset.mem_insert]
        tauto

/-- C16: after a sequence of successful calls on an edit with no entries,
`NumEntries()` is the number of `AddFile` calls, repeated adds of one file
each counted, plus the number of distinct pairs passed to `DeleteFile`. -/
theorem NumEntries_counts (kMaxSequenceNumber : Nat) (e e1 : VersionEdit)
    (ms : List Mutator) (h0 : e.NumEntries = 0)
    (hrun : callAll kMaxSequenceNumber e ms = .ok e1) :
    e1.NumEntries =
      (ms.filter Mutator.isAddFile).length +
        (ms.filterMap Mutator.deletedPair).toFinset.card := by
  obtain ⟨h1, h2⟩ := callAll_containers kMaxSequenceNumber ms e e1 hrun
  have hnew : e.new_files_.length = 0 := by unfold NumEntries at h0; omega
  have hdel : e.deleted_files_ = ∅ := by
    have : e.deleted_files_.card = 0 := by unfold NumEntries at h0; omega
    exact Finset.card_eq_zero.mp this
  unfold NumEntries
  rw [h1, h2, hnew, hdel]
  simp

/-- Witness of C16: file 7 added twice at level 1, and `DeleteFile(1, 7)`
called twice and `DeleteFile(2, 7)` once, give four entries. -/
theorem NumEntries_counts_witness :
    blank.NumEntries = 0 ∧
    ∃ e1, callAll 99 blank
        [.AddFile 1 7 0 4096 [⟨"k1"⟩, ⟨"k9"⟩] 10 20 false 0 0 0,
          .DeleteFile 1 7,
          .AddFile 1 7 0 4096 [⟨"k1"⟩, ⟨"k9"⟩] 10 20 false 0 0 0,
          .DeleteFile 1 7,
          .DeleteFile 2 7] = .ok e1 ∧
      e1.NumEntries = 2 + 2 :=
  ⟨by decide, _, rfl,
    (NumEntries_counts 99 blank _
      [.AddFile 1 7 0 4096 [⟨"k1"⟩, ⟨"k9"⟩] 10 20 false 0 0 0,
        .DeleteFile 1 7,
        .AddFile 1 7 0 4096 [⟨"k1"⟩, ⟨"k9"⟩] 10 20 false 0 0 0,
        .DeleteFile 1 7,
        .DeleteFile 2 7] (by decide) rfl).trans (by decide)⟩

end VersionEdit

end rocksdb

namespace rocksdb

/-! ## Merging an erase set into a range set -/

theorem rangeKeys_rangePairs :
    ∀ rs : List InternalKey, rs.length % 2 = 0 → rangeKeys (rangePairs rs) = rs
  | [], _ => rfl
  | [_], h => by simp at h
  | a :: b :: rest, h => by
    have hrest : rest.length % 2 = 0 := by
      simp only [List.length_cons] at h
      omega
    simp only [rangePairs, rangeKeys]
    rw [rangeKeys_rangePairs rest hrest]

/-- C12: for every range set (an even number of keys), comparator and
iterator, `MergeRangeSet` with an erase set into which nothing was pushed
gives an output identical to the range set, and `InitFrom` with that erase
set returns `changed = false` and leaves the record as it was. -/
theorem MergeRangeSet_empty_erase_set (rs : List InternalKey)
    (ic : InternalKeyComparator) (iter : InternalIterator)
    (p : PartialRemovedMetaData) (file : FileMetaData) (output_level : Nat)
    (hrs : rs.length % 2 = 0) (hfile : file.range_set.length % 2 = 0) :
    MergeRangeSet rs RangeEraseSet.empty ic iter = rs ∧
    (p.InitFrom file RangeEraseSet.empty output_level ic iter).2 = false ∧
    (p.InitFrom file RangeEraseSet.empty output_level ic iter).1 = p := by
  have hmerge : ∀ l : List InternalKey, l.length % 2 = 0 →
      MergeRangeSet l RangeEraseSet.empty ic iter = l := by
    intro l hl
    simp only [MergeRangeSet, RangeEraseSet.empty, RangeEraseSet.intervals,
      EraseInterval.sortByLow, List.foldl_nil]
    exact rangeKeys_rangePairs l hl
  refine ⟨hmerge rs hrs, ?_, ?_⟩
  · unfold PartialRemovedMetaData.InitFrom
    simp only [hmerge file.range_set hfile, if_true]
  · unfold PartialRemovedMetaData.InitFrom
    simp only [hmerge file.range_set hfile, if_true]

/-- Witness of C12 on the range set `[k1, k9]` of a file with stored keys
`k1, k2, k6, k9`. -/
theorem MergeRangeSet_empty_erase_set_witness :
    ([⟨"k1"⟩, ⟨"k9"⟩] : List InternalKey).length % 2 = 0 ∧
    MergeRangeSet [⟨"k1"⟩, ⟨"k9"⟩] RangeEraseSet.empty compareByRep
      [⟨"k1"⟩, ⟨"k2"⟩, ⟨"k6"⟩, ⟨"k9"⟩] = [⟨"k1"⟩, ⟨"k9"⟩] ∧
    (PartialRemovedMetaData.InitFrom ⟨[], none, 0, 0⟩
      { FileMetaData.ctor 99 with range_set := [⟨"k1"⟩, ⟨"k9"⟩] }
      RangeEraseSet.empty 0 compareByRep [⟨"k1"⟩, ⟨"k2"⟩, ⟨"k6"⟩, ⟨"k9"⟩]).2 = false :=
  have h := MergeRangeSet_empty_erase_set [⟨"k1"⟩, ⟨"k9"⟩] compareByRep
    [⟨"k1"⟩, ⟨"k2"⟩, ⟨"k6"⟩, ⟨"k9"⟩] ⟨[], none, 0, 0⟩
    { FileMetaData.ctor 99 with range_set := [⟨"k1"⟩, ⟨"k9"⟩] } 0 (by decide) (by decide)
  ⟨by decide, h.1, h.2.1⟩

/-- The spec's scenario C on the model: erasing the full range `[k1, k9]` of a
file whose range set is `[k1, k9]` leaves an empty range set. -/
theorem MergeRangeSet_scenario_full_erase :
    MergeRangeSet [⟨"k1"⟩, ⟨"k9"⟩]
      (RangeEraseSet.empty.push ⟨"k1"⟩ ⟨"k9"⟩ false false) compareByRep
      [⟨"k1"⟩, ⟨"k2"⟩, ⟨"k6"⟩, ⟨"k9"⟩] = [] := by
  decide

/-- The spec's scenario D on the model: erasing `[k3, k5]` from `[k1, k9]`,
`k2` and `k6` being the nearest stored keys, gives `[k1, k2, k6, k9]`. -/
theorem MergeRangeSet_scenario_hole :
    MergeRangeSet [⟨"k1"⟩, ⟨"k9"⟩]
      (RangeEraseSet.empty.push ⟨"k3"⟩ ⟨"k5"⟩ false false) compareByRep
      [⟨"k1"⟩, ⟨"k2"⟩, ⟨"k6"⟩, ⟨"k9"⟩] = [⟨"k1"⟩, ⟨"k2"⟩, ⟨"k6"⟩, ⟨"k9"⟩] := by
  decide

end rocksdb
